import Mathlib

/-!
Verification development for the storage core of an RDF quad store
(term codec, nine-index quad storage, transactional writer, bulk loader,
interval-encoding sidecar).

The Rust sources embedded here are `storage/binary_encoder.rs` and
`storage/mod.rs`.  Machine integers are modelled as `Fin (256 ^ w)` (the
set of `w`-byte values), byte strings as `List Nat` with every element
below 256 by construction.  Types that the storage core imports from
sibling modules that are not part of the sources at hand
(`numeric_encoder::StrHash`, `small_string::SmallString`, the xsd value
types, the `extendedTree` multi-tree) are modelled from the
specification: each is represented by its wire payload, on which the
`from_be_bytes` / `to_be_bytes` pair of the original type acts as the
identity up to the validity check noted at each definition.
-/

/-- Big-endian byte encoding of a natural number on `w` bytes, mirroring
Rust's `to_be_bytes` (the value is taken modulo `256 ^ w` byte by byte). -/
def toBytesBE : Nat → Nat → List Nat
  | 0, _ => []
  | w + 1, n => toBytesBE w (n / 256) ++ [n % 256]

/-- Big-endian byte decoding, mirroring Rust's `from_be_bytes`. -/
def fromBytesBE (l : List Nat) : Nat :=
  l.foldl (fun a b => a * 256 + b) 0

theorem length_toBytesBE (w n : Nat) : (toBytesBE w n).length = w := by
  induction w generalizing n with
  | zero => rfl
  | succ w ih => simp [toBytesBE, ih]

theorem fromBytesBE_toBytesBE (w n : Nat) (h : n < 256 ^ w) :
    fromBytesBE (toBytesBE w n) = n := by
  induction w generalizing n with
  | zero =>
    simp [toBytesBE, fromBytesBE]
    omega
  | succ w ih =>
    have hdiv : n / 256 < 256 ^ w := by
      rw [Nat.div_lt_iff_lt_mul (by norm_num)]
      calc n < 256 ^ (w + 1) := h
        _ = 256 ^ w * 256 := by ring
    simp only [toBytesBE, fromBytesBE, List.foldl_append, List.foldl_cons, List.foldl_nil]
    have := ih (n / 256) hdiv
    simp only [fromBytesBE] at this
    rw [this]
    omega

/-- Fixed-width byte values: `BV w` is the set of integers representable on
`w` bytes.  `StrHash` (a `u128` IRI/string hash) is `BV 16`; the numeric and
calendar literal payloads use their widths from the wire-format table. -/
abbrev BV (w : Nat) : Type := Fin (256 ^ w)

theorem bvPos (w : Nat) : 0 < 256 ^ w := Nat.pos_pow_of_pos w (by norm_num)

/-- Validity of a 16-byte `SmallString` buffer.  Modelled from the spec:
`small_string.rs` is not among the sources; per the wire table a small
string is "16-byte inline UTF-8 (length-prefixed within the 16)", the
length living in the final byte and bounded by 15.  (UTF-8 well-formedness
of the inline bytes is abstracted away; it does not affect any claim since
both encoder and decoder use the same validity predicate.) -/
def smallStrValid (b : List Nat) : Bool :=
  b.length = 16 && b.all (· < 256) && b.getLastD 0 ≤ 15

/-- The model of `SmallString`: a valid 16-byte buffer.  `to_be_bytes` is
the underlying buffer and `from_be_bytes` re-checks validity. -/
def SmallStr : Type := {b : List Nat // smallStrValid b = true}

instance : DecidableEq SmallStr := Subtype.instDecidableEq

/-- The `EncodedTerm` tagged union of `numeric_encoder.rs`, with the
variants and payload widths used by `binary_encoder.rs` (tags 1-48 of the
wire table).  `Triple` holds its three components inline (the Rust `Rc`
indirection is immaterial to values). -/
inductive EncodedTerm : Type where
  | defaultGraph
  | namedNode (iriId : BV 16)
  | numericalBlankNode (id : BV 16)
  | smallBlankNode (id : SmallStr)
  | bigBlankNode (idId : BV 16)
  | smallStringLiteral (value : SmallStr)
  | bigStringLiteral (valueId : BV 16)
  | smallSmallLangStringLiteral (value : SmallStr) (language : SmallStr)
  | smallBigLangStringLiteral (value : SmallStr) (languageId : BV 16)
  | bigSmallLangStringLiteral (valueId : BV 16) (language : SmallStr)
  | bigBigLangStringLiteral (valueId : BV 16) (languageId : BV 16)
  | smallTypedLiteral (datatypeId : BV 16) (value : SmallStr)
  | bigTypedLiteral (datatypeId : BV 16) (valueId : BV 16)
  | booleanLiteral (b : Bool)
  | floatLiteral (value : BV 4)
  | doubleLiteral (value : BV 8)
  | integerLiteral (value : BV 8)
  | decimalLiteral (value : BV 16)
  | dateTimeLiteral (value : BV 18)
  | timeLiteral (value : BV 18)
  | dateLiteral (value : BV 18)
  | gYearMonthLiteral (value : BV 18)
  | gYearLiteral (value : BV 18)
  | gMonthDayLiteral (value : BV 18)
  | gDayLiteral (value : BV 18)
  | gMonthLiteral (value : BV 18)
  | durationLiteral (value : BV 24)
  | yearMonthDurationLiteral (value : BV 8)
  | dayTimeDurationLiteral (value : BV 16)
  | triple (subject predicate object : EncodedTerm)
deriving DecidableEq

/-- The `EncodedQuad` 4-tuple of encoded terms. -/
structure EncodedQuad : Type where
  subject : EncodedTerm
  predicate : EncodedTerm
  object : EncodedTerm
  graphName : EncodedTerm
deriving DecidableEq

/-- Whether `DefaultGraph` occurs in a term (as the term itself or nested
inside a `Triple`).  The Rust term types for subject/predicate/object
positions exclude the default graph, so reachable quads have
`containsDefaultGraph = false` on those positions. -/
def containsDefaultGraph : EncodedTerm → Bool
  | .defaultGraph => true
  | .triple s p o => containsDefaultGraph s || containsDefaultGraph p || containsDefaultGraph o
  | _ => false

/-- Well-formedness of an encoded quad as enforced by the Rust `Quad` type:
subject, predicate and object never mention the default graph, and the
graph name is either the default graph or a term not mentioning it. -/
def wfQuad (q : EncodedQuad) : Bool :=
  !containsDefaultGraph q.subject && !containsDefaultGraph q.predicate &&
    !containsDefaultGraph q.object &&
    (q.graphName == .defaultGraph || !containsDefaultGraph q.graphName)

/-- The term serializer `write_term` of `binary_encoder.rs`: one tag byte
then the payload bytes; `DefaultGraph` emits nothing; language-tagged
literals write the language before the value, typed literals the datatype
before the value; triples write tag 48 then their three components. -/
def writeTerm : EncodedTerm → List Nat
  | .defaultGraph => []
  | .namedNode iriId => 1 :: toBytesBE 16 iriId.val
  | .numericalBlankNode id => 8 :: toBytesBE 16 id.val
  | .smallBlankNode id => 9 :: id.val
  | .bigBlankNode idId => 10 :: toBytesBE 16 idId.val
  | .smallStringLiteral value => 16 :: value.val
  | .bigStringLiteral valueId => 17 :: toBytesBE 16 valueId.val
  | .smallSmallLangStringLiteral value language => 20 :: (language.val ++ value.val)
  | .smallBigLangStringLiteral value languageId =>
      21 :: (toBytesBE 16 languageId.val ++ value.val)
  | .bigSmallLangStringLiteral valueId language =>
      22 :: (language.val ++ toBytesBE 16 valueId.val)
  | .bigBigLangStringLiteral valueId languageId =>
      23 :: (toBytesBE 16 languageId.val ++ toBytesBE 16 valueId.val)
  | .smallTypedLiteral datatypeId value => 24 :: (toBytesBE 16 datatypeId.val ++ value.val)
  | .bigTypedLiteral datatypeId valueId =>
      25 :: (toBytesBE 16 datatypeId.val ++ toBytesBE 16 valueId.val)
  | .booleanLiteral true => [28]
  | .booleanLiteral false => [29]
  | .floatLiteral value => 30 :: toBytesBE 4 value.val
  | .doubleLiteral value => 31 :: toBytesBE 8 value.val
  | .integerLiteral value => 32 :: toBytesBE 8 value.val
  | .decimalLiteral value => 33 :: toBytesBE 16 value.val
  | .dateTimeLiteral value => 34 :: toBytesBE 18 value.val
  | .timeLiteral value => 35 :: toBytesBE 18 value.val
  | .dateLiteral value => 36 :: toBytesBE 18 value.val
  | .gYearMonthLiteral value => 37 :: toBytesBE 18 value.val
  | .gYearLiteral value => 38 :: toBytesBE 18 value.val
  | .gMonthDayLiteral value => 39 :: toBytesBE 18 value.val
  | .gDayLiteral value => 40 :: toBytesBE 18 value.val
  | .gMonthLiteral value => 41 :: toBytesBE 18 value.val
  | .durationLiteral value => 42 :: toBytesBE 24 value.val
  | .yearMonthDurationLiteral value => 43 :: toBytesBE 8 value.val
  | .dayTimeDurationLiteral value => 44 :: toBytesBE 16 value.val
  | .triple s p o => 48 :: (writeTerm s ++ writeTerm p ++ writeTerm o)

/-- Reading a fixed-size payload from the front of a buffer, mirroring
`Read::read_exact` on a cursor: fails when the buffer is too short,
otherwise yields the payload and the remaining bytes. -/
def readPayload (k : Nat) (l : List Nat) : Except Unit (List Nat × List Nat) :=
  if k ≤ l.length then .ok (l.take k, l.drop k) else .error ()

/-- Reading a `w`-byte big-endian value (`from_be_bytes` after
`read_exact`). -/
def readBV (w : Nat) (l : List Nat) : Except Unit (BV w × List Nat) := do
  let (p, r) ← readPayload w l
  .ok (⟨fromBytesBE p % 256 ^ w, Nat.mod_lt _ (bvPos w)⟩, r)

/-- Reading a 16-byte small-string payload (`SmallString::from_be_bytes`
after `read_exact`); an invalid buffer is a corruption error. -/
def readSmallStr (l : List Nat) : Except Unit (SmallStr × List Nat) := do
  let (p, r) ← readPayload 16 l
  if h : smallStrValid p = true then .ok (⟨p, h⟩, r) else .error ()

/-- The term parser `read_term` of `binary_encoder.rs`, written with an
explicit recursion budget: every call consumes at least one byte before
recursing (the `Triple` tag), so a budget of the buffer length is
equivalent to the unbounded recursion of the source.  One tag byte is read
and dispatched on; any tag outside the wire table is a corruption error,
as is a short read. -/
def readTermFuel : Nat → List Nat → Except Unit (EncodedTerm × List Nat)
  | 0, _ => .error ()
  | _ + 1, [] => .error ()
  | fuel + 1, tag :: rest =>
    match tag with
    | 1 => do
      let (v, r) ← readBV 16 rest
      .ok (.namedNode v, r)
    | 8 => do
      let (v, r) ← readBV 16 rest
      .ok (.numericalBlankNode v, r)
    | 9 => do
      let (v, r) ← readSmallStr rest
      .ok (.smallBlankNode v, r)
    | 10 => do
      let (v, r) ← readBV 16 rest
      .ok (.bigBlankNode v, r)
    | 16 => do
      let (v, r) ← readSmallStr rest
      .ok (.smallStringLiteral v, r)
    | 17 => do
      let (v, r) ← readBV 16 rest
      .ok (.bigStringLiteral v, r)
    | 20 => do
      let (language, r1) ← readSmallStr rest
      let (value, r2) ← readSmallStr r1
      .ok (.smallSmallLangStringLiteral value language, r2)
    | 21 => do
      let (languageId, r1) ← readBV 16 rest
      let (value, r2) ← readSmallStr r1
      .ok (.smallBigLangStringLiteral value languageId, r2)
    | 22 => do
      let (language, r1) ← readSmallStr rest
      let (valueId, r2) ← readBV 16 r1
      .ok (.bigSmallLangStringLiteral valueId language, r2)
    | 23 => do
      let (languageId, r1) ← readBV 16 rest
      let (valueId, r2) ← readBV 16 r1
      .ok (.bigBigLangStringLiteral valueId languageId, r2)
    | 24 => do
      let (datatypeId, r1) ← readBV 16 rest
      let (value, r2) ← readSmallStr r1
      .ok (.smallTypedLiteral datatypeId value, r2)
    | 25 => do
      let (datatypeId, r1) ← readBV 16 rest
      let (valueId, r2) ← readBV 16 r1
      .ok (.bigTypedLiteral datatypeId valueId, r2)
    | 28 => .ok (.booleanLiteral true, rest)
    | 29 => .ok (.booleanLiteral false, rest)
    | 30 => do
      let (v, r) ← readBV 4 rest
      .ok (.floatLiteral v, r)
    | 31 => do
      let (v, r) ← readBV 8 rest
      .ok (.doubleLiteral v, r)
    | 32 => do
      let (v, r) ← readBV 8 rest
      .ok (.integerLiteral v, r)
    | 33 => do
      let (v, r) ← readBV 16 rest
      .ok (.decimalLiteral v, r)
    | 34 => do
      let (v, r) ← readBV 18 rest
      .ok (.dateTimeLiteral v, r)
    | 35 => do
      let (v, r) ← readBV 18 rest
      .ok (.timeLiteral v, r)
    | 36 => do
      let (v, r) ← readBV 18 rest
      .ok (.dateLiteral v, r)
    | 37 => do
      let (v, r) ← readBV 18 rest
      .ok (.gYearMonthLiteral v, r)
    | 38 => do
      let (v, r) ← readBV 18 rest
      .ok (.gYearLiteral v, r)
    | 39 => do
      let (v, r) ← readBV 18 rest
      .ok (.gMonthDayLiteral v, r)
    | 40 => do
      let (v, r) ← readBV 18 rest
      .ok (.gDayLiteral v, r)
    | 41 => do
      let (v, r) ← readBV 18 rest
      .ok (.gMonthLiteral v, r)
    | 42 => do
      let (v, r) ← readBV 24 rest
      .ok (.durationLiteral v, r)
    | 43 => do
      let (v, r) ← readBV 8 rest
      .ok (.yearMonthDurationLiteral v, r)
    | 44 => do
      let (v, r) ← readBV 16 rest
      .ok (.dayTimeDurationLiteral v, r)
    | 48 => do
      let (s, r1) ← readTermFuel fuel rest
      let (p, r2) ← readTermFuel fuel r1
      let (o, r3) ← readTermFuel fuel r2
      .ok (.triple s p o, r3)
    | _ => .error ()

/-- The term parser on a buffer, with the budget instantiated to the
buffer length. -/
def readTerm (l : List Nat) : Except Unit (EncodedTerm × List Nat) :=
  readTermFuel l.length l

theorem bindOk {ε α β : Type _} (a : α) (f : α → Except ε β) :
    (Except.ok a >>= f) = f a := rfl

theorem SmallStr.val_length (s : SmallStr) : s.val.length = 16 := by
  have h := s.property
  simp only [smallStrValid, Bool.and_eq_true, decide_eq_true_eq] at h
  exact h.1.1

theorem readPayload_append (k : Nat) (a r : List Nat) (h : a.length = k) :
    readPayload k (a ++ r) = .ok (a, r) := by
  subst h
  simp [readPayload, List.take_left, List.drop_left]

theorem readBV_roundtrip (w : Nat) (v : BV w) (rest : List Nat) :
    readBV w (toBytesBE w v.val ++ rest) = .ok (v, rest) := by
  rw [readBV, readPayload_append w _ rest (length_toBytesBE w v.val), bindOk]
  simp [fromBytesBE_toBytesBE w v.val v.isLt, Nat.mod_eq_of_lt v.isLt]

theorem readSmallStr_roundtrip (s : SmallStr) (rest : List Nat) :
    readSmallStr (s.val ++ rest) = .ok (s, rest) := by
  rw [readSmallStr, readPayload_append 16 _ rest (SmallStr.val_length s), bindOk]
  simp [s.property]

/-- Parsing inverts serialization with an arbitrary suffix, for every term
in which `DefaultGraph` does not occur and any recursion budget at least
the serialized length. -/
theorem readTermFuel_writeTerm :
    ∀ (t : EncodedTerm) (fuel : Nat) (rest : List Nat),
      containsDefaultGraph t = false → (writeTerm t).length ≤ fuel →
      readTermFuel fuel (writeTerm t ++ rest) = .ok (t, rest) := by
  intro t
  induction t
  case defaultGraph =>
    intro fuel rest hdg _
    simp [containsDefaultGraph] at hdg
  case triple s p o ihs ihp iho =>
    intro fuel rest hdg hlen
    simp only [containsDefaultGraph, Bool.or_eq_false_iff] at hdg
    obtain ⟨⟨hs, hp⟩, ho⟩ := hdg
    simp only [writeTerm, List.length_cons, List.length_append] at hlen
    cases fuel with
    | zero => omega
    | succ f =>
      have key : readTermFuel (f + 1)
          (48 :: (writeTerm s ++ (writeTerm p ++ (writeTerm o ++ rest)))) =
          Except.ok (EncodedTerm.triple s p o, rest) := by
        simp only [readTermFuel]
        rw [ihs f _ hs (by omega), bindOk, ihp f _ hp (by omega), bindOk,
          iho f rest ho (by omega), bindOk]
      rw [← key]
      simp [writeTerm, List.append_assoc]
  case booleanLiteral b =>
    intro fuel rest _ hlen
    cases fuel with
    | zero => cases b <;> simp [writeTerm] at hlen
    | succ f => cases b <;> simp [writeTerm, readTermFuel, bindOk]
  all_goals
    intro fuel rest _ hlen
    cases fuel with
    | zero => simp [writeTerm] at hlen
    | succ f =>
      simp [writeTerm, readTermFuel, List.append_assoc, readBV_roundtrip,
        readSmallStr_roundtrip, bindOk]

theorem readTerm_writeTerm (t : EncodedTerm) (rest : List Nat)
    (h : containsDefaultGraph t = false) :
    readTerm (writeTerm t ++ rest) = .ok (t, rest) := by
  apply readTermFuel_writeTerm t _ rest h
  simp [readTerm]

theorem writeTerm_append_inj {t₁ t₂ : EncodedTerm} {r₁ r₂ : List Nat}
    (h₁ : containsDefaultGraph t₁ = false) (h₂ : containsDefaultGraph t₂ = false)
    (he : writeTerm t₁ ++ r₁ = writeTerm t₂ ++ r₂) : t₁ = t₂ ∧ r₁ = r₂ := by
  have k₁ := readTermFuel_writeTerm t₁ (writeTerm t₁ ++ r₁).length r₁ h₁ (by simp)
  have k₂ := readTermFuel_writeTerm t₂ (writeTerm t₁ ++ r₁).length r₂ h₂
    (by rw [he]; simp)
  rw [he] at k₁ k₂
  rw [k₁] at k₂
  injection k₂ with k
  injection k with ka kb
  exact ⟨ka, kb⟩

theorem writeTerm_inj {t₁ t₂ : EncodedTerm}
    (h₁ : containsDefaultGraph t₁ = false) (h₂ : containsDefaultGraph t₂ = false)
    (he : writeTerm t₁ = writeTerm t₂) : t₁ = t₂ := by
  have h := writeTerm_append_inj h₁ h₂
    (show writeTerm t₁ ++ [] = writeTerm t₂ ++ [] by simp [he])
  exact h.1

theorem writeTerm3_inj {a₁ b₁ c₁ a₂ b₂ c₂ : EncodedTerm}
    (ha₁ : containsDefaultGraph a₁ = false) (hb₁ : containsDefaultGraph b₁ = false)
    (hc₁ : containsDefaultGraph c₁ = false)
    (ha₂ : containsDefaultGraph a₂ = false) (hb₂ : containsDefaultGraph b₂ = false)
    (hc₂ : containsDefaultGraph c₂ = false)
    (he : writeTerm a₁ ++ writeTerm b₁ ++ writeTerm c₁ =
      writeTerm a₂ ++ writeTerm b₂ ++ writeTerm c₂) :
    a₁ = a₂ ∧ b₁ = b₂ ∧ c₁ = c₂ := by
  rw [List.append_assoc, List.append_assoc] at he
  obtain ⟨e₁, he⟩ := writeTerm_append_inj ha₁ ha₂ he
  obtain ⟨e₂, he⟩ := writeTerm_append_inj hb₁ hb₂ he
  exact ⟨e₁, e₂, writeTerm_inj hc₁ hc₂ he⟩

theorem writeTerm4_inj {a₁ b₁ c₁ d₁ a₂ b₂ c₂ d₂ : EncodedTerm}
    (ha₁ : containsDefaultGraph a₁ = false) (hb₁ : containsDefaultGraph b₁ = false)
    (hc₁ : containsDefaultGraph c₁ = false) (hd₁ : containsDefaultGraph d₁ = false)
    (ha₂ : containsDefaultGraph a₂ = false) (hb₂ : containsDefaultGraph b₂ = false)
    (hc₂ : containsDefaultGraph c₂ = false) (hd₂ : containsDefaultGraph d₂ = false)
    (he : writeTerm a₁ ++ writeTerm b₁ ++ writeTerm c₁ ++ writeTerm d₁ =
      writeTerm a₂ ++ writeTerm b₂ ++ writeTerm c₂ ++ writeTerm d₂) :
    a₁ = a₂ ∧ b₁ = b₂ ∧ c₁ = c₂ ∧ d₁ = d₂ := by
  rw [List.append_assoc, List.append_assoc, List.append_assoc, List.append_assoc] at he
  obtain ⟨e₁, he⟩ := writeTerm_append_inj ha₁ ha₂ he
  obtain ⟨e₂, he⟩ := writeTerm_append_inj hb₁ hb₂ he
  obtain ⟨e₃, he⟩ := writeTerm_append_inj hc₁ hc₂ he
  exact ⟨e₁, e₂, e₃, writeTerm_inj hd₁ hd₂ he⟩

/-- The key writer `write_spo_quad`: concatenation of the subject,
predicate and object encodings (default-graph triple key). -/
def writeSpoQuad (q : EncodedQuad) : List Nat :=
  writeTerm q.subject ++ writeTerm q.predicate ++ writeTerm q.object

/-- The key writer `write_pos_quad`. -/
def writePosQuad (q : EncodedQuad) : List Nat :=
  writeTerm q.predicate ++ writeTerm q.object ++ writeTerm q.subject

/-- The key writer `write_osp_quad`. -/
def writeOspQuad (q : EncodedQuad) : List Nat :=
  writeTerm q.object ++ writeTerm q.subject ++ writeTerm q.predicate

/-- The key writer `write_spog_quad`. -/
def writeSpogQuad (q : EncodedQuad) : List Nat :=
  writeTerm q.subject ++ writeTerm q.predicate ++ writeTerm q.object ++
    writeTerm q.graphName

/-- The key writer `write_posg_quad`. -/
def writePosgQuad (q : EncodedQuad) : List Nat :=
  writeTerm q.predicate ++ writeTerm q.object ++ writeTerm q.subject ++
    writeTerm q.graphName

/-- The key writer `write_ospg_quad`. -/
def writeOspgQuad (q : EncodedQuad) : List Nat :=
  writeTerm q.object ++ writeTerm q.subject ++ writeTerm q.predicate ++
    writeTerm q.graphName

/-- The key writer `write_gspo_quad`. -/
def writeGspoQuad (q : EncodedQuad) : List Nat :=
  writeTerm q.graphName ++ writeTerm q.subject ++ writeTerm q.predicate ++
    writeTerm q.object

/-- The key writer `write_gpos_quad`. -/
def writeGposQuad (q : EncodedQuad) : List Nat :=
  writeTerm q.graphName ++ writeTerm q.predicate ++ writeTerm q.object ++
    writeTerm q.subject

/-- The key writer `write_gosp_quad`. -/
def writeGospQuad (q : EncodedQuad) : List Nat :=
  writeTerm q.graphName ++ writeTerm q.object ++ writeTerm q.subject ++
    writeTerm q.predicate

/-- Model of `encode_term`. -/
def encodeTerm (t : EncodedTerm) : List Nat := writeTerm t

/-- Model of `encode_term_pair`. -/
def encodeTermPair (t₁ t₂ : EncodedTerm) : List Nat := writeTerm t₁ ++ writeTerm t₂

/-- Model of `encode_term_triple`. -/
def encodeTermTriple (t₁ t₂ t₃ : EncodedTerm) : List Nat :=
  writeTerm t₁ ++ writeTerm t₂ ++ writeTerm t₃

/-- Model of `encode_term_quad`. -/
def encodeTermQuad (t₁ t₂ t₃ t₄ : EncodedTerm) : List Nat :=
  writeTerm t₁ ++ writeTerm t₂ ++ writeTerm t₃ ++ writeTerm t₄

/-- Model of `read_spog_quad` of the `TermReader` trait: four terms in key order,
reassembled into an `EncodedQuad` (trailing bytes are not inspected, as
with the cursor in the source). -/
def readSpogQuad (l : List Nat) : Except Unit EncodedQuad := do
  let (subject, r₁) ← readTerm l
  let (predicate, r₂) ← readTerm r₁
  let (object, r₃) ← readTerm r₂
  let (graphName, _) ← readTerm r₃
  .ok ⟨subject, predicate, object, graphName⟩

/-- Model of `read_posg_quad`. -/
def readPosgQuad (l : List Nat) : Except Unit EncodedQuad := do
  let (predicate, r₁) ← readTerm l
  let (object, r₂) ← readTerm r₁
  let (subject, r₃) ← readTerm r₂
  let (graphName, _) ← readTerm r₃
  .ok ⟨subject, predicate, object, graphName⟩

/-- Model of `read_ospg_quad`. -/
def readOspgQuad (l : List Nat) : Except Unit EncodedQuad := do
  let (object, r₁) ← readTerm l
  let (subject, r₂) ← readTerm r₁
  let (predicate, r₃) ← readTerm r₂
  let (graphName, _) ← readTerm r₃
  .ok ⟨subject, predicate, object, graphName⟩

/-- Model of `read_gspo_quad`. -/
def readGspoQuad (l : List Nat) : Except Unit EncodedQuad := do
  let (graphName, r₁) ← readTerm l
  let (subject, r₂) ← readTerm r₁
  let (predicate, r₃) ← readTerm r₂
  let (object, _) ← readTerm r₃
  .ok ⟨subject, predicate, object, graphName⟩

/-- Model of `read_gpos_quad`. -/
def readGposQuad (l : List Nat) : Except Unit EncodedQuad := do
  let (graphName, r₁) ← readTerm l
  let (predicate, r₂) ← readTerm r₁
  let (object, r₃) ← readTerm r₂
  let (subject, _) ← readTerm r₃
  .ok ⟨subject, predicate, object, graphName⟩

/-- Model of `read_gosp_quad`. -/
def readGospQuad (l : List Nat) : Except Unit EncodedQuad := do
  let (graphName, r₁) ← readTerm l
  let (object, r₂) ← readTerm r₁
  let (subject, r₃) ← readTerm r₂
  let (predicate, _) ← readTerm r₃
  .ok ⟨subject, predicate, object, graphName⟩

/-- Model of `read_dspo_quad`: three terms, the graph name fixed to the default
graph. -/
def readDspoQuad (l : List Nat) : Except Unit EncodedQuad := do
  let (subject, r₁) ← readTerm l
  let (predicate, r₂) ← readTerm r₁
  let (object, _) ← readTerm r₂
  .ok ⟨subject, predicate, object, .defaultGraph⟩

/-- Model of `read_dpos_quad`. -/
def readDposQuad (l : List Nat) : Except Unit EncodedQuad := do
  let (predicate, r₁) ← readTerm l
  let (object, r₂) ← readTerm r₁
  let (subject, _) ← readTerm r₂
  .ok ⟨subject, predicate, object, .defaultGraph⟩

/-- Model of `read_dosp_quad`. -/
def readDospQuad (l : List Nat) : Except Unit EncodedQuad := do
  let (object, r₁) ← readTerm l
  let (subject, r₂) ← readTerm r₁
  let (predicate, _) ← readTerm r₂
  .ok ⟨subject, predicate, object, .defaultGraph⟩

theorem wfQuad_parts {q : EncodedQuad} (h : wfQuad q = true) :
    containsDefaultGraph q.subject = false ∧ containsDefaultGraph q.predicate = false ∧
      containsDefaultGraph q.object = false ∧
      (q.graphName = .defaultGraph ∨ containsDefaultGraph q.graphName = false) := by
  simp only [wfQuad, Bool.and_eq_true, Bool.not_eq_true', Bool.or_eq_true,
    beq_iff_eq] at h
  tauto

theorem quad_eq_of_parts {q₁ q₂ : EncodedQuad} (hs : q₁.subject = q₂.subject)
    (hp : q₁.predicate = q₂.predicate) (ho : q₁.object = q₂.object)
    (hg : q₁.graphName = q₂.graphName) : q₁ = q₂ := by
  cases q₁; cases q₂
  simp_all

theorem writeSpoQuad_inj {q₁ q₂ : EncodedQuad} (h₁ : wfQuad q₁ = true)
    (h₂ : wfQuad q₂ = true) (hg₁ : q₁.graphName = .defaultGraph)
    (hg₂ : q₂.graphName = .defaultGraph)
    (he : writeSpoQuad q₁ = writeSpoQuad q₂) : q₁ = q₂ := by
  obtain ⟨a₁, b₁, c₁, _⟩ := wfQuad_parts h₁
  obtain ⟨a₂, b₂, c₂, _⟩ := wfQuad_parts h₂
  obtain ⟨e₁, e₂, e₃⟩ := writeTerm3_inj a₁ b₁ c₁ a₂ b₂ c₂ he
  exact quad_eq_of_parts e₁ e₂ e₃ (hg₁.trans hg₂.symm)

theorem writePosQuad_inj {q₁ q₂ : EncodedQuad} (h₁ : wfQuad q₁ = true)
    (h₂ : wfQuad q₂ = true) (hg₁ : q₁.graphName = .defaultGraph)
    (hg₂ : q₂.graphName = .defaultGraph)
    (he : writePosQuad q₁ = writePosQuad q₂) : q₁ = q₂ := by
  obtain ⟨a₁, b₁, c₁, _⟩ := wfQuad_parts h₁
  obtain ⟨a₂, b₂, c₂, _⟩ := wfQuad_parts h₂
  obtain ⟨e₁, e₂, e₃⟩ := writeTerm3_inj b₁ c₁ a₁ b₂ c₂ a₂ he
  exact quad_eq_of_parts e₃ e₁ e₂ (hg₁.trans hg₂.symm)

theorem writeOspQuad_inj {q₁ q₂ : EncodedQuad} (h₁ : wfQuad q₁ = true)
    (h₂ : wfQuad q₂ = true) (hg₁ : q₁.graphName = .defaultGraph)
    (hg₂ : q₂.graphName = .defaultGraph)
    (he : writeOspQuad q₁ = writeOspQuad q₂) : q₁ = q₂ := by
  obtain ⟨a₁, b₁, c₁, _⟩ := wfQuad_parts h₁
  obtain ⟨a₂, b₂, c₂, _⟩ := wfQuad_parts h₂
  obtain ⟨e₁, e₂, e₃⟩ := writeTerm3_inj c₁ a₁ b₁ c₂ a₂ b₂ he
  exact quad_eq_of_parts e₂ e₃ e₁ (hg₁.trans hg₂.symm)

theorem wfNamed_graph {q : EncodedQuad} (h : wfQuad q = true)
    (hg : q.graphName ≠ .defaultGraph) :
    containsDefaultGraph q.graphName = false := by
  rcases (wfQuad_parts h).2.2.2 with h' | h'
  · exact absurd h' hg
  · exact h'

theorem writeSpogQuad_inj {q₁ q₂ : EncodedQuad} (h₁ : wfQuad q₁ = true)
    (h₂ : wfQuad q₂ = true) (hg₁ : q₁.graphName ≠ .defaultGraph)
    (hg₂ : q₂.graphName ≠ .defaultGraph)
    (he : writeSpogQuad q₁ = writeSpogQuad q₂) : q₁ = q₂ := by
  obtain ⟨a₁, b₁, c₁, _⟩ := wfQuad_parts h₁
  obtain ⟨a₂, b₂, c₂, _⟩ := wfQuad_parts h₂
  obtain ⟨e₁, e₂, e₃, e₄⟩ := writeTerm4_inj a₁ b₁ c₁ (wfNamed_graph h₁ hg₁)
    a₂ b₂ c₂ (wfNamed_graph h₂ hg₂) he
  exact quad_eq_of_parts e₁ e₂ e₃ e₄

theorem writePosgQuad_inj {q₁ q₂ : EncodedQuad} (h₁ : wfQuad q₁ = true)
    (h₂ : wfQuad q₂ = true) (hg₁ : q₁.graphName ≠ .defaultGraph)
    (hg₂ : q₂.graphName ≠ .defaultGraph)
    (he : writePosgQuad q₁ = writePosgQuad q₂) : q₁ = q₂ := by
  obtain ⟨a₁, b₁, c₁, _⟩ := wfQuad_parts h₁
  obtain ⟨a₂, b₂, c₂, _⟩ := wfQuad_parts h₂
  obtain ⟨e₁, e₂, e₃, e₄⟩ := writeTerm4_inj b₁ c₁ a₁ (wfNamed_graph h₁ hg₁)
    b₂ c₂ a₂ (wfNamed_graph h₂ hg₂) he
  exact quad_eq_of_parts e₃ e₁ e₂ e₄

theorem writeOspgQuad_inj {q₁ q₂ : EncodedQuad} (h₁ : wfQuad q₁ = true)
    (h₂ : wfQuad q₂ = true) (hg₁ : q₁.graphName ≠ .defaultGraph)
    (hg₂ : q₂.graphName ≠ .defaultGraph)
    (he : writeOspgQuad q₁ = writeOspgQuad q₂) : q₁ = q₂ := by
  obtain ⟨a₁, b₁, c₁, _⟩ := wfQuad_parts h₁
  obtain ⟨a₂, b₂, c₂, _⟩ := wfQuad_parts h₂
  obtain ⟨e₁, e₂, e₃, e₄⟩ := writeTerm4_inj c₁ a₁ b₁ (wfNamed_graph h₁ hg₁)
    c₂ a₂ b₂ (wfNamed_graph h₂ hg₂) he
  exact quad_eq_of_parts e₂ e₃ e₁ e₄

theorem writeGspoQuad_inj {q₁ q₂ : EncodedQuad} (h₁ : wfQuad q₁ = true)
    (h₂ : wfQuad q₂ = true) (hg₁ : q₁.graphName ≠ .defaultGraph)
    (hg₂ : q₂.graphName ≠ .defaultGraph)
    (he : writeGspoQuad q₁ = writeGspoQuad q₂) : q₁ = q₂ := by
  obtain ⟨a₁, b₁, c₁, _⟩ := wfQuad_parts h₁
  obtain ⟨a₂, b₂, c₂, _⟩ := wfQuad_parts h₂
  obtain ⟨e₁, e₂, e₃, e₄⟩ := writeTerm4_inj (wfNamed_graph h₁ hg₁) a₁ b₁ c₁
    (wfNamed_graph h₂ hg₂) a₂ b₂ c₂ he
  exact quad_eq_of_parts e₂ e₃ e₄ e₁

theorem writeGposQuad_inj {q₁ q₂ : EncodedQuad} (h₁ : wfQuad q₁ = true)
    (h₂ : wfQuad q₂ = true) (hg₁ : q₁.graphName ≠ .defaultGraph)
    (hg₂ : q₂.graphName ≠ .defaultGraph)
    (he : writeGposQuad q₁ = writeGposQuad q₂) : q₁ = q₂ := by
  obtain ⟨a₁, b₁, c₁, _⟩ := wfQuad_parts h₁
  obtain ⟨a₂, b₂, c₂, _⟩ := wfQuad_parts h₂
  obtain ⟨e₁, e₂, e₃, e₄⟩ := writeTerm4_inj (wfNamed_graph h₁ hg₁) b₁ c₁ a₁
    (wfNamed_graph h₂ hg₂) b₂ c₂ a₂ he
  exact quad_eq_of_parts e₄ e₂ e₃ e₁

theorem writeGospQuad_inj {q₁ q₂ : EncodedQuad} (h₁ : wfQuad q₁ = true)
    (h₂ : wfQuad q₂ = true) (hg₁ : q₁.graphName ≠ .defaultGraph)
    (hg₂ : q₂.graphName ≠ .defaultGraph)
    (he : writeGospQuad q₁ = writeGospQuad q₂) : q₁ = q₂ := by
  obtain ⟨a₁, b₁, c₁, _⟩ := wfQuad_parts h₁
  obtain ⟨a₂, b₂, c₂, _⟩ := wfQuad_parts h₂
  obtain ⟨e₁, e₂, e₃, e₄⟩ := writeTerm4_inj (wfNamed_graph h₁ hg₁) c₁ a₁ b₁
    (wfNamed_graph h₂ hg₂) c₂ a₂ b₂ he
  exact quad_eq_of_parts e₃ e₄ e₂ e₁

/-- The nine quad/triple column families of `storage/mod.rs`. -/
inductive ColumnFamily : Type where
  | spog | posg | ospg | gspo | gpos | gosp | dspo | dpos | dosp
deriving DecidableEq

/-- One prefix scan: a column family together with the key prefix handed to
`Reader::scan_prefix` by `inner_quads`. -/
abbrev PrefixScan : Type := ColumnFamily × List Nat

/-- A `ChainedDecodingQuadIterator`: the scans it draws from (`new` builds
one scan, `pair` chains two). -/
structure ScanPlan : Type where
  first : PrefixScan
  second : Option PrefixScan
deriving DecidableEq

/-- Model of `ChainedDecodingQuadIterator::new`. -/
def chainedNew (first : PrefixScan) : ScanPlan := ⟨first, none⟩

/-- Model of `ChainedDecodingQuadIterator::pair`. -/
def chainedPair (first second : PrefixScan) : ScanPlan := ⟨first, some second⟩

/-- Model of `spog_quads` through `dosp_quads`: each fixes the column family of the
scan. -/
def spogQuads (pfx : List Nat) : PrefixScan := (.spog, pfx)

def posgQuads (pfx : List Nat) : PrefixScan := (.posg, pfx)

def ospgQuads (pfx : List Nat) : PrefixScan := (.ospg, pfx)

def gspoQuads (pfx : List Nat) : PrefixScan := (.gspo, pfx)

def gposQuads (pfx : List Nat) : PrefixScan := (.gpos, pfx)

def gospQuads (pfx : List Nat) : PrefixScan := (.gosp, pfx)

def dspoQuads (pfx : List Nat) : PrefixScan := (.dspo, pfx)

def dposQuads (pfx : List Nat) : PrefixScan := (.dpos, pfx)

def dospQuads (pfx : List Nat) : PrefixScan := (.dosp, pfx)

/-- The `QuadEncoding::decode` dispatch: which row decoder each column
family's keys go through. -/
def cfDecode : ColumnFamily → List Nat → Except Unit EncodedQuad
  | .spog => readSpogQuad
  | .posg => readPosgQuad
  | .ospg => readOspgQuad
  | .gspo => readGspoQuad
  | .gpos => readGposQuad
  | .gosp => readGospQuad
  | .dspo => readDspoQuad
  | .dpos => readDposQuad
  | .dosp => readDospQuad

/-- Model of `StorageReader::quads`. -/
def quadsAll : ScanPlan := chainedPair (dspoQuads []) (gspoQuads [])

/-- Model of `StorageReader::quads_for_subject`. -/
def quadsForSubject (s : EncodedTerm) : ScanPlan :=
  chainedPair (dspoQuads (encodeTerm s)) (spogQuads (encodeTerm s))

/-- Model of `StorageReader::quads_for_subject_predicate`. -/
def quadsForSubjectPredicate (s p : EncodedTerm) : ScanPlan :=
  chainedPair (dspoQuads (encodeTermPair s p)) (spogQuads (encodeTermPair s p))

/-- Model of `StorageReader::quads_for_subject_predicate_object`. -/
def quadsForSubjectPredicateObject (s p o : EncodedTerm) : ScanPlan :=
  chainedPair (dspoQuads (encodeTermTriple s p o)) (spogQuads (encodeTermTriple s p o))

/-- Model of `StorageReader::quads_for_subject_object`. -/
def quadsForSubjectObject (s o : EncodedTerm) : ScanPlan :=
  chainedPair (dospQuads (encodeTermPair o s)) (ospgQuads (encodeTermPair o s))

/-- Model of `StorageReader::quads_for_predicate`. -/
def quadsForPredicate (p : EncodedTerm) : ScanPlan :=
  chainedPair (dposQuads (encodeTerm p)) (posgQuads (encodeTerm p))

/-- Model of `StorageReader::quads_for_predicate_object`. -/
def quadsForPredicateObject (p o : EncodedTerm) : ScanPlan :=
  chainedPair (dposQuads (encodeTermPair p o)) (posgQuads (encodeTermPair p o))

/-- Model of `StorageReader::quads_for_object`. -/
def quadsForObject (o : EncodedTerm) : ScanPlan :=
  chainedPair (dospQuads (encodeTerm o)) (ospgQuads (encodeTerm o))

/-- Model of `StorageReader::quads_for_graph`. -/
def quadsForGraph (g : EncodedTerm) : ScanPlan :=
  chainedNew (if g = .defaultGraph then dspoQuads [] else gspoQuads (encodeTerm g))

/-- Model of `StorageReader::quads_for_subject_graph`. -/
def quadsForSubjectGraph (s g : EncodedTerm) : ScanPlan :=
  chainedNew (if g = .defaultGraph then dspoQuads (encodeTerm s)
    else gspoQuads (encodeTermPair g s))

/-- Model of `StorageReader::quads_for_subject_predicate_graph`. -/
def quadsForSubjectPredicateGraph (s p g : EncodedTerm) : ScanPlan :=
  chainedNew (if g = .defaultGraph then dspoQuads (encodeTermPair s p)
    else gspoQuads (encodeTermTriple g s p))

/-- Model of `StorageReader::quads_for_subject_predicate_object_graph`. -/
def quadsForSubjectPredicateObjectGraph (s p o g : EncodedTerm) : ScanPlan :=
  chainedNew (if g = .defaultGraph then dspoQuads (encodeTermTriple s p o)
    else gspoQuads (encodeTermQuad g s p o))

/-- Model of `StorageReader::quads_for_subject_object_graph`. -/
def quadsForSubjectObjectGraph (s o g : EncodedTerm) : ScanPlan :=
  chainedNew (if g = .defaultGraph then dospQuads (encodeTermPair o s)
    else gospQuads (encodeTermTriple g o s))

/-- Model of `StorageReader::quads_for_predicate_graph`. -/
def quadsForPredicateGraph (p g : EncodedTerm) : ScanPlan :=
  chainedNew (if g = .defaultGraph then dposQuads (encodeTerm p)
    else gposQuads (encodeTermPair g p))

/-- Model of `StorageReader::quads_for_predicate_object_graph`. -/
def quadsForPredicateObjectGraph (p o g : EncodedTerm) : ScanPlan :=
  chainedNew (if g = .defaultGraph then dposQuads (encodeTermPair p o)
    else gposQuads (encodeTermTriple g p o))

/-- Model of `StorageReader::quads_for_object_graph`. -/
def quadsForObjectGraph (o g : EncodedTerm) : ScanPlan :=
  chainedNew (if g = .defaultGraph then dospQuads (encodeTerm o)
    else gospQuads (encodeTermPair g o))

/-- Model of `StorageReader::quads_for_pattern`: dispatch on which of the four
pattern positions are bound, exactly as the nested `match` of the source. -/
def quadsForPattern (subject predicate object graphName : Option EncodedTerm) :
    ScanPlan :=
  match subject with
  | some s =>
    match predicate with
    | some p =>
      match object with
      | some o =>
        match graphName with
        | some g => quadsForSubjectPredicateObjectGraph s p o g
        | none => quadsForSubjectPredicateObject s p o
      | none =>
        match graphName with
        | some g => quadsForSubjectPredicateGraph s p g
        | none => quadsForSubjectPredicate s p
    | none =>
      match object with
      | some o =>
        match graphName with
        | some g => quadsForSubjectObjectGraph s o g
        | none => quadsForSubjectObject s o
      | none =>
        match graphName with
        | some g => quadsForSubjectGraph s g
        | none => quadsForSubject s
  | none =>
    match predicate with
    | some p =>
      match object with
      | some o =>
        match graphName with
        | some g => quadsForPredicateObjectGraph p o g
        | none => quadsForPredicateObject p o
      | none =>
        match graphName with
        | some g => quadsForPredicateGraph p g
        | none => quadsForPredicate p
    | none =>
      match object with
      | some o =>
        match graphName with
        | some g => quadsForObjectGraph o g
        | none => quadsForObject o
      | none =>
        match graphName with
        | some g => quadsForGraph g
        | none => quadsAll

/-- Per-term `id2str` entries.  Modelled from the spec (§4.4 item 4):
`numeric_encoder::insert_term` is not among the sources; for every newly
materialized term it records the string behind each 16-byte hash occurring
in the term (IRI hashes, big blank-node/literal/language/datatype hashes;
inline payloads store no string).  The column family is modelled by its
key set. -/
def termStrHashes : EncodedTerm → Finset (BV 16)
  | .namedNode iriId => {iriId}
  | .bigBlankNode idId => {idId}
  | .bigStringLiteral valueId => {valueId}
  | .smallBigLangStringLiteral _ languageId => {languageId}
  | .bigSmallLangStringLiteral valueId _ => {valueId}
  | .bigBigLangStringLiteral valueId languageId => {valueId, languageId}
  | .smallTypedLiteral datatypeId _ => {datatypeId}
  | .bigTypedLiteral datatypeId valueId => {datatypeId, valueId}
  | .triple s p o => termStrHashes s ∪ termStrHashes p ∪ termStrHashes o
  | _ => ∅

/-- The mutable storage of `storage/mod.rs`, by column family: the nine
quad/triple indexes and `graphs` as key sets (values are empty in the
engine), `id2str` as its key set. -/
structure StorageState : Type where
  dspo : Finset (List Nat)
  dpos : Finset (List Nat)
  dosp : Finset (List Nat)
  spog : Finset (List Nat)
  posg : Finset (List Nat)
  ospg : Finset (List Nat)
  gspo : Finset (List Nat)
  gpos : Finset (List Nat)
  gosp : Finset (List Nat)
  graphs : Finset (List Nat)
  id2str : Finset (BV 16)
deriving DecidableEq

/-- The freshly created store: every column family empty. -/
def emptyStorage : StorageState :=
  ⟨∅, ∅, ∅, ∅, ∅, ∅, ∅, ∅, ∅, ∅, ∅⟩

/-- Model of `StorageReader::contains`: the `dspo` key decides presence of a
default-graph quad, the `spog` key presence of a named-graph quad. -/
def storageContains (st : StorageState) (q : EncodedQuad) : Bool :=
  if q.graphName = .defaultGraph then writeSpoQuad q ∈ st.dspo
  else writeSpogQuad q ∈ st.spog

/-- The nine index row counts of a storage state. -/
def rowCounts (st : StorageState) : List Nat :=
  [st.dspo.card, st.dpos.card, st.dosp.card, st.spog.card, st.posg.card,
    st.ospg.card, st.gspo.card, st.gpos.card, st.gosp.card]

/-- Model of `StorageWriter::insert`.  Default-graph path: if the `dspo` key is
already present return `false` with no writes; otherwise write the three
permuted keys and record the term strings.  Named-graph path: same with
the `spog` key and the six permuted keys, then add the graph name to
`graphs` (and its string) when it is new.  The returned Boolean reports
whether the quad was new. -/
def StorageWriter.insert (st : StorageState) (q : EncodedQuad) :
    Bool × StorageState :=
  if q.graphName = .defaultGraph then
    if writeSpoQuad q ∈ st.dspo then (false, st)
    else
      (true,
        { st with
          dspo := Insert.insert (writeSpoQuad q) st.dspo
          dpos := Insert.insert (writePosQuad q) st.dpos
          dosp := Insert.insert (writeOspQuad q) st.dosp
          id2str := st.id2str ∪ termStrHashes q.subject ∪
            termStrHashes q.predicate ∪ termStrHashes q.object })
  else
    if writeSpogQuad q ∈ st.spog then (false, st)
    else
      let st₁ :=
        { st with
          spog := Insert.insert (writeSpogQuad q) st.spog
          posg := Insert.insert (writePosgQuad q) st.posg
          ospg := Insert.insert (writeOspgQuad q) st.ospg
          gspo := Insert.insert (writeGspoQuad q) st.gspo
          gpos := Insert.insert (writeGposQuad q) st.gpos
          gosp := Insert.insert (writeGospQuad q) st.gosp
          id2str := st.id2str ∪ termStrHashes q.subject ∪
            termStrHashes q.predicate ∪ termStrHashes q.object }
      if writeTerm q.graphName ∈ st₁.graphs then (true, st₁)
      else
        (true,
          { st₁ with
            graphs := Insert.insert (writeTerm q.graphName) st₁.graphs
            id2str := st₁.id2str ∪ termStrHashes q.graphName })

/-- Model of `StorageWriter::remove_encoded` (the body of `StorageWriter::remove`):
if the `dspo` (resp. `spog`) key is present, delete the three (resp. six)
permuted keys and return `true`; otherwise return `false`.  Neither
`id2str` nor `graphs` is touched. -/
def StorageWriter.removeEncoded (st : StorageState) (q : EncodedQuad) :
    Bool × StorageState :=
  if q.graphName = .defaultGraph then
    if writeSpoQuad q ∈ st.dspo then
      (true,
        { st with
          dspo := st.dspo.erase (writeSpoQuad q)
          dpos := st.dpos.erase (writePosQuad q)
          dosp := st.dosp.erase (writeOspQuad q) })
    else (false, st)
  else
    if writeSpogQuad q ∈ st.spog then
      (true,
        { st with
          spog := st.spog.erase (writeSpogQuad q)
          posg := st.posg.erase (writePosgQuad q)
          ospg := st.ospg.erase (writeOspgQuad q)
          gspo := st.gspo.erase (writeGspoQuad q)
          gpos := st.gpos.erase (writeGposQuad q)
          gosp := st.gosp.erase (writeGospQuad q) })
    else (false, st)

/-- One writer operation: an insert or a remove of one quad. -/
inductive StoreOp : Type where
  | ins (q : EncodedQuad)
  | del (q : EncodedQuad)
deriving DecidableEq

/-- Application of one operation (the state component of the writer call). -/
def applyOp (st : StorageState) (op : StoreOp) : StorageState :=
  match op with
  | .ins q => (StorageWriter.insert st q).2
  | .del q => (StorageWriter.removeEncoded st q).2

/-- Application of a sequence of writer operations, oldest first. -/
def applyOps (ops : List StoreOp) (st : StorageState) : StorageState :=
  ops.foldl applyOp st

/-- Well-formedness of an operation: its quad is well-formed. -/
def wfOp : StoreOp → Bool
  | .ins q => wfQuad q
  | .del q => wfQuad q

theorem mem_image_writeSpoQuad {T : Finset EncodedQuad}
    (hT : ∀ x ∈ T, wfQuad x = true ∧ x.graphName = .defaultGraph)
    {q : EncodedQuad} (hq : wfQuad q = true) (hg : q.graphName = .defaultGraph) :
    writeSpoQuad q ∈ T.image writeSpoQuad ↔ q ∈ T := by
  constructor
  · intro h
    obtain ⟨x, hx, hfx⟩ := Finset.mem_image.mp h
    obtain ⟨hxw, hxg⟩ := hT x hx
    rwa [writeSpoQuad_inj hxw hq hxg hg hfx] at hx
  · exact fun h => Finset.mem_image_of_mem _ h

theorem mem_image_writeSpogQuad {Q : Finset EncodedQuad}
    (hQ : ∀ x ∈ Q, wfQuad x = true ∧ x.graphName ≠ .defaultGraph)
    {q : EncodedQuad} (hq : wfQuad q = true) (hg : q.graphName ≠ .defaultGraph) :
    writeSpogQuad q ∈ Q.image writeSpogQuad ↔ q ∈ Q := by
  constructor
  · intro h
    obtain ⟨x, hx, hfx⟩ := Finset.mem_image.mp h
    obtain ⟨hxw, hxg⟩ := hQ x hx
    rwa [writeSpogQuad_inj hxw hq hxg hg hfx] at hx
  · exact fun h => Finset.mem_image_of_mem _ h

theorem mem_image_writeTerm {G : Finset EncodedTerm}
    (hG : ∀ x ∈ G, containsDefaultGraph x = false)
    {g : EncodedTerm} (hg : containsDefaultGraph g = false) :
    writeTerm g ∈ G.image writeTerm ↔ g ∈ G := by
  constructor
  · intro h
    obtain ⟨x, hx, hfx⟩ := Finset.mem_image.mp h
    rwa [writeTerm_inj (hG x hx) hg hfx] at hx
  · exact fun h => Finset.mem_image_of_mem _ h

theorem image_erase_of_injAt {α β : Type _} [DecidableEq α] [DecidableEq β]
    (f : α → β) (s : Finset α) (q : α)
    (hinj : ∀ x ∈ s, f x = f q → x = q) :
    (s.erase q).image f = (s.image f).erase (f q) := by
  ext y
  simp only [Finset.mem_image, Finset.mem_erase]
  constructor
  · rintro ⟨x, ⟨hxq, hxs⟩, rfl⟩
    exact ⟨fun h => hxq (hinj x hxs h), x, hxs, rfl⟩
  · rintro ⟨hy, x, hxs, rfl⟩
    exact ⟨x, ⟨fun h => hy (h ▸ rfl), hxs⟩, rfl⟩

/-- Abstract contents of the store: the set of default-graph triples, the
set of named-graph quads, the set of named graphs, and the string-table
keys.  This is the representation the index-coherence and bulk-load
arguments factor through. -/
structure AbsState : Type where
  dtriples : Finset EncodedQuad
  nquads : Finset EncodedQuad
  graphTerms : Finset EncodedTerm
  strs : Finset (BV 16)
deriving DecidableEq

/-- The `id2str` keys contributed by the subject, predicate and object of a
quad. -/
def quadStrs (q : EncodedQuad) : Finset (BV 16) :=
  termStrHashes q.subject ∪ termStrHashes q.predicate ∪ termStrHashes q.object

/-- The storage state represented by an abstract state: each index holds
the keys of its permutation over the corresponding quad set. -/
def concretize (a : AbsState) : StorageState where
  dspo := a.dtriples.image writeSpoQuad
  dpos := a.dtriples.image writePosQuad
  dosp := a.dtriples.image writeOspQuad
  spog := a.nquads.image writeSpogQuad
  posg := a.nquads.image writePosgQuad
  ospg := a.nquads.image writeOspgQuad
  gspo := a.nquads.image writeGspoQuad
  gpos := a.nquads.image writeGposQuad
  gosp := a.nquads.image writeGospQuad
  graphs := a.graphTerms.image writeTerm
  id2str := a.strs

/-- Well-formedness of an abstract state: reachable quads are well-formed
and sorted into the right set, graph terms never mention the default
graph, and every named quad's graph is recorded. -/
def WfAbs (a : AbsState) : Prop :=
  (∀ q ∈ a.dtriples, wfQuad q = true ∧ q.graphName = .defaultGraph) ∧
    (∀ q ∈ a.nquads, wfQuad q = true ∧ q.graphName ≠ .defaultGraph) ∧
    (∀ g ∈ a.graphTerms, containsDefaultGraph g = false) ∧
    (∀ q ∈ a.nquads, q.graphName ∈ a.graphTerms)

/-- The effect of `StorageWriter::insert` on the abstract contents. -/
def absInsert (a : AbsState) (q : EncodedQuad) : AbsState :=
  if q.graphName = .defaultGraph then
    if q ∈ a.dtriples then a
    else { a with dtriples := insert q a.dtriples, strs := a.strs ∪ quadStrs q }
  else
    if q ∈ a.nquads then a
    else
      let a₁ := { a with nquads := insert q a.nquads, strs := a.strs ∪ quadStrs q }
      if q.graphName ∈ a.graphTerms then a₁
      else
        { a₁ with
          graphTerms := insert q.graphName a.graphTerms
          strs := a₁.strs ∪ termStrHashes q.graphName }

/-- The effect of `StorageWriter::remove_encoded` on the abstract
contents. -/
def absRemove (a : AbsState) (q : EncodedQuad) : AbsState :=
  if q.graphName = .defaultGraph then { a with dtriples := a.dtriples.erase q }
  else { a with nquads := a.nquads.erase q }

theorem insertOp_sim (a : AbsState) (q : EncodedQuad) (ha : WfAbs a)
    (hq : wfQuad q = true) :
    (StorageWriter.insert (concretize a) q).2 = concretize (absInsert a q) := by
  obtain ⟨haD, haN, haG, _⟩ := ha
  by_cases hg : q.graphName = .defaultGraph
  · have hiff : writeSpoQuad q ∈ (concretize a).dspo ↔ q ∈ a.dtriples := by
      simp only [concretize]
      exact mem_image_writeSpoQuad haD hq hg
    by_cases hmem : q ∈ a.dtriples
    · rw [StorageWriter.insert, absInsert, if_pos hg, if_pos hg,
        if_pos (hiff.mpr hmem), if_pos hmem]
    · rw [StorageWriter.insert, absInsert, if_pos hg, if_pos hg,
        if_neg (fun h => hmem (hiff.mp h)), if_neg hmem]
      simp [concretize, Finset.image_insert, quadStrs, Finset.union_assoc]
  · have hiff : writeSpogQuad q ∈ (concretize a).spog ↔ q ∈ a.nquads := by
      simp only [concretize]
      exact mem_image_writeSpogQuad haN hq hg
    by_cases hmem : q ∈ a.nquads
    · rw [StorageWriter.insert, absInsert, if_neg hg, if_neg hg,
        if_pos (hiff.mpr hmem), if_pos hmem]
    · have hgraphiff : writeTerm q.graphName ∈ (concretize a).graphs ↔
          q.graphName ∈ a.graphTerms := by
        simp only [concretize]
        exact mem_image_writeTerm haG (wfNamed_graph hq hg)
      by_cases hgmem : q.graphName ∈ a.graphTerms
      · rw [StorageWriter.insert, absInsert, if_neg hg, if_neg hg,
          if_neg (fun h => hmem (hiff.mp h)), if_neg hmem]
        simp only [if_pos (show writeTerm q.graphName ∈
          (({ concretize a with
              spog := Insert.insert (writeSpogQuad q) (concretize a).spog,
              posg := Insert.insert (writePosgQuad q) (concretize a).posg,
              ospg := Insert.insert (writeOspgQuad q) (concretize a).ospg,
              gspo := Insert.insert (writeGspoQuad q) (concretize a).gspo,
              gpos := Insert.insert (writeGposQuad q) (concretize a).gpos,
              gosp := Insert.insert (writeGospQuad q) (concretize a).gosp,
              id2str := (concretize a).id2str ∪ termStrHashes q.subject ∪
                termStrHashes q.predicate ∪ termStrHashes q.object } :
              StorageState)).graphs from hgraphiff.mpr hgmem), if_pos hgmem]
        simp [concretize, Finset.image_insert, quadStrs, Finset.union_assoc]
      · rw [StorageWriter.insert, absInsert, if_neg hg, if_neg hg,
          if_neg (fun h => hmem (hiff.mp h)), if_neg hmem]
        simp only [if_neg (show ¬writeTerm q.graphName ∈
          (({ concretize a with
              spog := Insert.insert (writeSpogQuad q) (concretize a).spog,
              posg := Insert.insert (writePosgQuad q) (concretize a).posg,
              ospg := Insert.insert (writeOspgQuad q) (concretize a).ospg,
              gspo := Insert.insert (writeGspoQuad q) (concretize a).gspo,
              gpos := Insert.insert (writeGposQuad q) (concretize a).gpos,
              gosp := Insert.insert (writeGospQuad q) (concretize a).gosp,
              id2str := (concretize a).id2str ∪ termStrHashes q.subject ∪
                termStrHashes q.predicate ∪ termStrHashes q.object } :
              StorageState)).graphs from fun h => hgmem (hgraphiff.mp h)),
          if_neg hgmem]
        simp [concretize, Finset.image_insert, quadStrs, Finset.union_assoc]

theorem removeOp_sim (a : AbsState) (q : EncodedQuad) (ha : WfAbs a)
    (hq : wfQuad q = true) :
    (StorageWriter.removeEncoded (concretize a) q).2 = concretize (absRemove a q) := by
  obtain ⟨haD, haN, _, _⟩ := ha
  by_cases hg : q.graphName = .defaultGraph
  · have hiff : writeSpoQuad q ∈ (concretize a).dspo ↔ q ∈ a.dtriples := by
      simp only [concretize]
      exact mem_image_writeSpoQuad haD hq hg
    by_cases hmem : q ∈ a.dtriples
    · rw [StorageWriter.removeEncoded, absRemove, if_pos hg, if_pos hg,
        if_pos (hiff.mpr hmem)]
      have e₁ := image_erase_of_injAt writeSpoQuad a.dtriples q
        (fun x hx he => writeSpoQuad_inj (haD x hx).1 hq (haD x hx).2 hg he)
      have e₂ := image_erase_of_injAt writePosQuad a.dtriples q
        (fun x hx he => writePosQuad_inj (haD x hx).1 hq (haD x hx).2 hg he)
      have e₃ := image_erase_of_injAt writeOspQuad a.dtriples q
        (fun x hx he => writeOspQuad_inj (haD x hx).1 hq (haD x hx).2 hg he)
      simp [concretize, e₁, e₂, e₃]
    · rw [StorageWriter.removeEncoded, absRemove, if_pos hg, if_pos hg,
        if_neg (fun h => hmem (hiff.mp h))]
      simp [concretize, Finset.erase_eq_of_not_mem hmem]
  · have hiff : writeSpogQuad q ∈ (concretize a).spog ↔ q ∈ a.nquads := by
      simp only [concretize]
      exact mem_image_writeSpogQuad haN hq hg
    by_cases hmem : q ∈ a.nquads
    · rw [StorageWriter.removeEncoded, absRemove, if_neg hg, if_neg hg,
        if_pos (hiff.mpr hmem)]
      have e₁ := image_erase_of_injAt writeSpogQuad a.nquads q
        (fun x hx he => writeSpogQuad_inj (haN x hx).1 hq (haN x hx).2 hg he)
      have e₂ := image_erase_of_injAt writePosgQuad a.nquads q
        (fun x hx he => writePosgQuad_inj (haN x hx).1 hq (haN x hx).2 hg he)
      have e₃ := image_erase_of_injAt writeOspgQuad a.nquads q
        (fun x hx he => writeOspgQuad_inj (haN x hx).1 hq (haN x hx).2 hg he)
      have e₄ := image_erase_of_injAt writeGspoQuad a.nquads q
        (fun x hx he => writeGspoQuad_inj (haN x hx).1 hq (haN x hx).2 hg he)
      have e₅ := image_erase_of_injAt writeGposQuad a.nquads q
        (fun x hx he => writeGposQuad_inj (haN x hx).1 hq (haN x hx).2 hg he)
      have e₆ := image_erase_of_injAt writeGospQuad a.nquads q
        (fun x hx he => writeGospQuad_inj (haN x hx).1 hq (haN x hx).2 hg he)
      simp [concretize, e₁, e₂, e₃, e₄, e₅, e₆]
    · rw [StorageWriter.removeEncoded, absRemove, if_neg hg, if_neg hg,
        if_neg (fun h => hmem (hiff.mp h))]
      simp [concretize, Finset.erase_eq_of_not_mem hmem]

theorem absInsert_wf {a : AbsState} {q : EncodedQuad} (ha : WfAbs a)
    (hq : wfQuad q = true) : WfAbs (absInsert a q) := by
  obtain ⟨haD, haN, haG, haGN⟩ := ha
  by_cases hg : q.graphName = .defaultGraph
  · by_cases hmem : q ∈ a.dtriples
    · rw [absInsert, if_pos hg, if_pos hmem]
      exact ⟨haD, haN, haG, haGN⟩
    · rw [absInsert, if_pos hg, if_neg hmem]
      refine ⟨?_, haN, haG, haGN⟩
      intro x hx
      rcases Finset.mem_insert.mp hx with rfl | hx
      · exact ⟨hq, hg⟩
      · exact haD x hx
  · by_cases hmem : q ∈ a.nquads
    · rw [absInsert, if_neg hg, if_pos hmem]
      exact ⟨haD, haN, haG, haGN⟩
    · by_cases hgmem : q.graphName ∈ a.graphTerms
      · rw [absInsert, if_neg hg, if_neg hmem]
        simp only [if_pos hgmem]
        refine ⟨haD, ?_, haG, ?_⟩
        · intro x hx
          rcases Finset.mem_insert.mp hx with rfl | hx
          · exact ⟨hq, hg⟩
          · exact haN x hx
        · intro x hx
          rcases Finset.mem_insert.mp hx with rfl | hx
          · exact hgmem
          · exact haGN x hx
      · rw [absInsert, if_neg hg, if_neg hmem]
        simp only [if_neg hgmem]
        refine ⟨haD, ?_, ?_, ?_⟩
        · intro x hx
          rcases Finset.mem_insert.mp hx with rfl | hx
          · exact ⟨hq, hg⟩
          · exact haN x hx
        · intro x hx
          rcases Finset.mem_insert.mp hx with rfl | hx
          · exact wfNamed_graph hq hg
          · exact haG x hx
        · intro x hx
          rcases Finset.mem_insert.mp hx with rfl | hx
          · exact Finset.mem_insert_self _ _
          · exact Finset.mem_insert_of_mem (haGN x hx)

theorem absRemove_wf {a : AbsState} {q : EncodedQuad} (ha : WfAbs a) :
    WfAbs (absRemove a q) := by
  obtain ⟨haD, haN, haG, haGN⟩ := ha
  by_cases hg : q.graphName = .defaultGraph
  · rw [absRemove, if_pos hg]
    exact ⟨fun x hx => haD x (Finset.mem_of_mem_erase hx), haN, haG, haGN⟩
  · rw [absRemove, if_neg hg]
    exact ⟨haD, fun x hx => haN x (Finset.mem_of_mem_erase hx), haG,
      fun x hx => haGN x (Finset.mem_of_mem_erase hx)⟩

/-- The abstract effect of one writer operation. -/
def absApplyOp (a : AbsState) (op : StoreOp) : AbsState :=
  match op with
  | .ins q => absInsert a q
  | .del q => absRemove a q

/-- The abstract effect of a sequence of writer operations. -/
def absApplyOps (ops : List StoreOp) (a : AbsState) : AbsState :=
  ops.foldl absApplyOp a

/-- The empty abstract state. -/
def emptyAbs : AbsState := ⟨∅, ∅, ∅, ∅⟩

theorem concretize_emptyAbs : concretize emptyAbs = emptyStorage := by
  simp [concretize, emptyAbs, emptyStorage]

theorem emptyAbs_wf : WfAbs emptyAbs := by
  refine ⟨?_, ?_, ?_, ?_⟩ <;> simp [emptyAbs]

theorem applyOps_sim :
    ∀ (ops : List StoreOp) (a : AbsState), WfAbs a →
      (∀ op ∈ ops, wfOp op = true) →
      applyOps ops (concretize a) = concretize (absApplyOps ops a) ∧
        WfAbs (absApplyOps ops a) := by
  intro ops
  induction ops with
  | nil => intro a ha _; exact ⟨rfl, ha⟩
  | cons op ops ih =>
    intro a ha hwf
    have hop := hwf op (List.mem_cons_self op ops)
    have hrest : ∀ x ∈ ops, wfOp x = true :=
      fun x hx => hwf x (List.mem_cons_of_mem op hx)
    cases op with
    | ins q =>
      have hq : wfQuad q = true := hop
      have hstep : applyOp (concretize a) (.ins q) = concretize (absInsert a q) :=
        insertOp_sim a q ha hq
      have := ih (absInsert a q) (absInsert_wf ha hq) hrest
      simpa [applyOps, absApplyOps, hstep] using this
    | del q =>
      have hq : wfQuad q = true := hop
      have hstep : applyOp (concretize a) (.del q) = concretize (absRemove a q) :=
        removeOp_sim a q ha hq
      have := ih (absRemove a q) (absRemove_wf ha) hrest
      simpa [applyOps, absApplyOps, hstep] using this

/-- Byte-string comparison used when sorting SST keys (`sort_unstable` on
`Vec<u8>` is lexicographic). -/
def byteLe : List Nat → List Nat → Bool
  | [], _ => true
  | _ :: _, [] => false
  | a :: as, b :: bs => if a < b then true else if b < a then false else byteLe as bs

/-- Pair comparison used when sorting `(key, value)` SST entries. -/
def pairLe (x y : List Nat × List Nat) : Bool :=
  if x.1 = y.1 then byteLe x.2 y.2 else byteLe x.1 y.1

/-- Model of `FileBulkLoader::build_sst_for_keys`: collect the keys, sort them, and
emit them in order into one pre-sorted immutable file. -/
def buildSstForKeys (values : List (List Nat)) : List (List Nat) :=
  values.mergeSort byteLe

/-- Model of `FileBulkLoader::build_sst_for_oxiuse_value`: the `(key, value)`
variant of the sorted-file builder. -/
def buildSstForOxiuseValue (values : List (List Nat × List Nat)) :
    List (List Nat × List Nat) :=
  values.mergeSort pairLe

/-- Model of `FileBulkLoader::build_sst_for_oxiuse_key`: identical to the key-only
builder (the interval bytes already live inside the key). -/
def buildSstForOxiuseKey (values : List (List Nat)) : List (List Nat) :=
  values.mergeSort byteLe

/-- Ingestion of one pre-sorted key file into a column family
(`insert_stt_files`): the engine adds every key of the file. -/
def ingestKeys (cf : Finset (List Nat)) (file : List (List Nat)) :
    Finset (List Nat) :=
  file.foldl (fun s k => insert k s) cf

theorem foldl_insert_toFinset {α : Type _} [DecidableEq α] :
    ∀ (l : List α) (s : Finset α), l.foldl (fun s k => insert k s) s = s ∪ l.toFinset := by
  intro l
  induction l with
  | nil => intro s; simp
  | cons a l ih =>
    intro s
    simp only [List.foldl_cons, ih, List.toFinset_cons]
    ext x
    simp [or_comm, or_assoc, or_left_comm]

theorem toFinset_mergeSort {α : Type _} [DecidableEq α] (le : α → α → Bool)
    (l : List α) : (l.mergeSort le).toFinset = l.toFinset := by
  ext x
  simp [List.mem_mergeSort]

theorem ingestKeys_buildSst (cf : Finset (List Nat)) (vals : List (List Nat)) :
    ingestKeys cf (buildSstForKeys vals) = cf ∪ vals.toFinset := by
  rw [ingestKeys, buildSstForKeys, foldl_insert_toFinset, toFinset_mergeSort]

/-- The in-memory dedup state of one `FileBulkLoader` batch: the string
map and the three hash sets.  The hash sets are modelled as duplicate-free
lists (iteration order is immaterial: every file built from them is
sorted, and ingestion is a set union). -/
structure BatchState : Type where
  id2str : Finset (BV 16)
  quads : List EncodedQuad
  triples : List EncodedQuad
  graphs : List EncodedTerm
deriving DecidableEq

/-- Model of `FileBulkLoader::new`: all dedup state empty. -/
def fblNew : BatchState := ⟨∅, [], [], []⟩

/-- One step of `FileBulkLoader::encode`: route a quad to the triples or
quads set; on first sight record the term strings, and for a named quad
also the graph name (plus its string on first sight). -/
def fblEncodeStep (b : BatchState) (q : EncodedQuad) : BatchState :=
  if q.graphName = .defaultGraph then
    if q ∈ b.triples then b
    else { b with triples := q :: b.triples, id2str := b.id2str ∪ quadStrs q }
  else
    if q ∈ b.quads then b
    else
      let b₁ := { b with quads := q :: b.quads, id2str := b.id2str ∪ quadStrs q }
      if q.graphName ∈ b.graphs then b₁
      else
        { b₁ with
          graphs := q.graphName :: b.graphs
          id2str := b₁.id2str ∪ termStrHashes q.graphName }

/-- Model of `FileBulkLoader::encode` over a batch of quads. -/
def fblEncode (qs : List EncodedQuad) : BatchState :=
  qs.foldl fblEncodeStep fblNew

/-- Model of `FileBulkLoader::save`: emit one sorted file per column family (the
string table keyed by hash; `dspo`/`dpos`/`dosp` from the triples set
under `encode_term_triple`; `graphs` plus the six quad indexes under
`encode_term_quad`) and hand them to the engine in one ingest call.
The `is_empty` guards of the source are kept. -/
def fblSave (b : BatchState) (st : StorageState) : StorageState :=
  let st₁ :=
    if b.id2str = ∅ then st
    else { st with id2str := st.id2str ∪ b.id2str }
  let st₂ :=
    if b.triples.isEmpty then st₁
    else
      { st₁ with
        dspo := ingestKeys st₁.dspo (buildSstForKeys (b.triples.map
          (fun q => encodeTermTriple q.subject q.predicate q.object)))
        dpos := ingestKeys st₁.dpos (buildSstForKeys (b.triples.map
          (fun q => encodeTermTriple q.predicate q.object q.subject)))
        dosp := ingestKeys st₁.dosp (buildSstForKeys (b.triples.map
          (fun q => encodeTermTriple q.object q.subject q.predicate))) }
  if b.quads.isEmpty then st₂
  else
    { st₂ with
      graphs := ingestKeys st₂.graphs (buildSstForKeys (b.graphs.map encodeTerm))
      gspo := ingestKeys st₂.gspo (buildSstForKeys (b.quads.map
        (fun q => encodeTermQuad q.graphName q.subject q.predicate q.object)))
      gpos := ingestKeys st₂.gpos (buildSstForKeys (b.quads.map
        (fun q => encodeTermQuad q.graphName q.predicate q.object q.subject)))
      gosp := ingestKeys st₂.gosp (buildSstForKeys (b.quads.map
        (fun q => encodeTermQuad q.graphName q.object q.subject q.predicate)))
      spog := ingestKeys st₂.spog (buildSstForKeys (b.quads.map
        (fun q => encodeTermQuad q.subject q.predicate q.object q.graphName)))
      posg := ingestKeys st₂.posg (buildSstForKeys (b.quads.map
        (fun q => encodeTermQuad q.predicate q.object q.subject q.graphName)))
      ospg := ingestKeys st₂.ospg (buildSstForKeys (b.quads.map
        (fun q => encodeTermQuad q.object q.subject q.predicate q.graphName))) }

/-- Model of `FileBulkLoader::load` on one batch: encode into the dedup sets, then
save the sorted files. -/
def fileBulkLoad (qs : List EncodedQuad) (st : StorageState) : StorageState :=
  fblSave (fblEncode qs) st

theorem toFinset_map {α β : Type _} [DecidableEq α] [DecidableEq β]
    (f : α → β) (l : List α) : (l.map f).toFinset = l.toFinset.image f := by
  induction l with
  | nil => simp
  | cons a l ih => simp [ih]

/-- The abstract contents of a batch's dedup state. -/
def batchAbs (b : BatchState) : AbsState :=
  ⟨b.triples.toFinset, b.quads.toFinset, b.graphs.toFinset, b.id2str⟩

theorem fblEncodeStep_abs (b : BatchState) (q : EncodedQuad) :
    batchAbs (fblEncodeStep b q) = absInsert (batchAbs b) q := by
  by_cases hg : q.graphName = .defaultGraph
  · by_cases hmem : q ∈ b.triples
    · rw [fblEncodeStep, absInsert, if_pos hg, if_pos hg, if_pos hmem,
        if_pos (show q ∈ (batchAbs b).dtriples from List.mem_toFinset.mpr hmem)]
    · rw [fblEncodeStep, absInsert, if_pos hg, if_pos hg, if_neg hmem,
        if_neg (show ¬q ∈ (batchAbs b).dtriples from
          fun h => hmem (List.mem_toFinset.mp h))]
      simp [batchAbs]
  · by_cases hmem : q ∈ b.quads
    · rw [fblEncodeStep, absInsert, if_neg hg, if_neg hg, if_pos hmem,
        if_pos (show q ∈ (batchAbs b).nquads from List.mem_toFinset.mpr hmem)]
    · by_cases hgmem : q.graphName ∈ b.graphs
      · rw [fblEncodeStep, absInsert, if_neg hg, if_neg hg, if_neg hmem,
          if_neg (show ¬q ∈ (batchAbs b).nquads from
            fun h => hmem (List.mem_toFinset.mp h))]
        simp only [if_pos hgmem,
          if_pos (show q.graphName ∈ (batchAbs b).graphTerms from
            List.mem_toFinset.mpr hgmem)]
        simp [batchAbs]
      · rw [fblEncodeStep, absInsert, if_neg hg, if_neg hg, if_neg hmem,
          if_neg (show ¬q ∈ (batchAbs b).nquads from
            fun h => hmem (List.mem_toFinset.mp h))]
        simp only [if_neg hgmem,
          if_neg (show ¬q.graphName ∈ (batchAbs b).graphTerms from
            fun h => hgmem (List.mem_toFinset.mp h))]
        simp [batchAbs]

theorem fblEncode_abs_aux :
    ∀ (qs : List EncodedQuad) (b : BatchState),
      batchAbs (qs.foldl fblEncodeStep b) =
        (qs.map StoreOp.ins).foldl absApplyOp (batchAbs b) := by
  intro qs
  induction qs with
  | nil => intro b; rfl
  | cons q qs ih =>
    intro b
    simp only [List.foldl_cons, List.map_cons, ih, absApplyOp, fblEncodeStep_abs]

theorem fblEncode_abs (qs : List EncodedQuad) :
    batchAbs (fblEncode qs) = absApplyOps (qs.map StoreOp.ins) emptyAbs := by
  rw [fblEncode, fblEncode_abs_aux, absApplyOps]
  rfl

theorem fblEncode_graphs_nil :
    ∀ (qs : List EncodedQuad) (b : BatchState),
      (b.quads = [] → b.graphs = []) →
      ((qs.foldl fblEncodeStep b).quads = [] →
        (qs.foldl fblEncodeStep b).graphs = []) := by
  intro qs
  induction qs with
  | nil => intro b h; exact h
  | cons q qs ih =>
    intro b h
    apply ih
    rw [fblEncodeStep]
    split
    · split
      · exact h
      · exact fun hq => h hq
    · split
      · exact h
      · split
        · intro hq; simp at hq
        · intro hq; simp at hq

theorem encodeTerm_eq_writeTerm : encodeTerm = writeTerm := rfl

theorem encodeSpo_eq :
    (fun (q : EncodedQuad) => encodeTermTriple q.subject q.predicate q.object) =
      writeSpoQuad := rfl

theorem encodePos_eq :
    (fun (q : EncodedQuad) => encodeTermTriple q.predicate q.object q.subject) =
      writePosQuad := rfl

theorem encodeOsp_eq :
    (fun (q : EncodedQuad) => encodeTermTriple q.object q.subject q.predicate) =
      writeOspQuad := rfl

theorem encodeSpog_eq :
    (fun (q : EncodedQuad) =>
      encodeTermQuad q.subject q.predicate q.object q.graphName) =
      writeSpogQuad := rfl

theorem encodePosg_eq :
    (fun (q : EncodedQuad) =>
      encodeTermQuad q.predicate q.object q.subject q.graphName) =
      writePosgQuad := rfl

theorem encodeOspg_eq :
    (fun (q : EncodedQuad) =>
      encodeTermQuad q.object q.subject q.predicate q.graphName) =
      writeOspgQuad := rfl

theorem encodeGspo_eq :
    (fun (q : EncodedQuad) =>
      encodeTermQuad q.graphName q.subject q.predicate q.object) =
      writeGspoQuad := rfl

theorem encodeGpos_eq :
    (fun (q : EncodedQuad) =>
      encodeTermQuad q.graphName q.predicate q.object q.subject) =
      writeGposQuad := rfl

theorem encodeGosp_eq :
    (fun (q : EncodedQuad) =>
      encodeTermQuad q.graphName q.object q.subject q.predicate) =
      writeGospQuad := rfl

theorem fblSave_emptyStorage (b : BatchState)
    (hgr : b.quads = [] → b.graphs = []) :
    fblSave b emptyStorage = concretize (batchAbs b) := by
  have hid : (if b.id2str = ∅ then emptyStorage
      else { emptyStorage with id2str := emptyStorage.id2str ∪ b.id2str }) =
      { emptyStorage with id2str := b.id2str } := by
    split
    · simp_all [emptyStorage]
    · simp [emptyStorage]
  rw [fblSave, hid]
  by_cases ht : b.triples.isEmpty
  · have ht' : b.triples = [] := List.isEmpty_iff.mp ht
    by_cases hq : b.quads.isEmpty
    · have hq' : b.quads = [] := List.isEmpty_iff.mp hq
      have hg' : b.graphs = [] := hgr hq'
      simp [ht, hq, concretize, batchAbs, ht', hq', hg', emptyStorage]
    · simp only [if_pos ht, if_neg hq]
      have hq' := hq
      simp [concretize, batchAbs, ht', ingestKeys_buildSst, toFinset_map,
        emptyStorage]
      exact ⟨rfl, rfl, rfl, rfl, rfl, rfl, rfl⟩
  · by_cases hq : b.quads.isEmpty
    · have hq' : b.quads = [] := List.isEmpty_iff.mp hq
      have hg' : b.graphs = [] := hgr hq'
      simp [ht, hq, concretize, batchAbs, hq', hg', ingestKeys_buildSst,
        toFinset_map, emptyStorage]
      exact ⟨rfl, rfl, rfl⟩
    · simp [ht, hq, concretize, batchAbs, ingestKeys_buildSst, toFinset_map,
        emptyStorage]
      exact ⟨rfl, rfl, rfl, rfl, rfl, rfl, rfl, rfl, rfl, rfl⟩

set_option maxRecDepth 10000

/-- Tracked vocabulary IRIs (`extendedTree::vocab`): `rdfs:subClassOf`. -/
def rdfsSubClassOf : String := "http://www.w3.org/2000/01/rdf-schema#subClassOf"

/-- Model of `rdfs:subPropertyOf`. -/
def rdfsSubPropertyOf : String := "http://www.w3.org/2000/01/rdf-schema#subPropertyOf"

/-- Model of `rdfs:domain`. -/
def rdfsDomain : String := "http://www.w3.org/2000/01/rdf-schema#domain"

/-- Model of `rdfs:range`. -/
def rdfsRange : String := "http://www.w3.org/2000/01/rdf-schema#range"

/-- Model of `rdf:type`. -/
def rdfTypeIri : String := "http://www.w3.org/1999/02/22-rdf-syntax-ns#type"

/-- The LUBM sub-organization predicate (`lubm::SUB_ORGANIZATION`). -/
def lubmSubOrganizationOf : String :=
  "http://swat.cse.lehigh.edu/onto/univ-bench.owl#subOrganizationOf"

/-- Modelled from the spec: `StrHash::new`, the 128-bit string hash of
`numeric_encoder.rs` (not among the sources).  No claim below depends on
the hash function itself, only on applying the same function on both
sides, so a concrete fold over the characters stands in. -/
def strHashNew (s : String) : BV 16 :=
  ⟨s.data.foldl (fun a c => (a * 65599 + c.toNat) % 256 ^ 16) 5381 % 256 ^ 16,
    Nat.mod_lt _ (bvPos 16)⟩

/-- Hash of `rdfs:subClassOf` (`sub_class_of` in
`encoded_interval_encoding`). -/
def subClassOfHash : BV 16 := strHashNew rdfsSubClassOf

/-- Hash of `rdfs:subPropertyOf`. -/
def subPropertyOfHash : BV 16 := strHashNew rdfsSubPropertyOf

/-- Hash of `rdfs:domain`. -/
def domainHash : BV 16 := strHashNew rdfsDomain

/-- Hash of `rdfs:range`. -/
def rangeHash : BV 16 := strHashNew rdfsRange

/-- Hash of `rdf:type`. -/
def rdfTypeHash : BV 16 := strHashNew rdfTypeIri

/-- Hash of the LUBM sub-organization predicate. -/
def subOrganizationOfHash : BV 16 := strHashNew lubmSubOrganizationOf

/-- One interval label on a taxonomy-tree node, with the data of the
parent that introduced it.  Modelled from the spec (§3.4): the
`extendedTree` module is not among the sources; every interval label
arises from one parent edge, `start`/`end` are 8 bytes and `layer` 2
bytes big-endian on the wire.  Storing the parent's data directly makes
the source's `get_parent().unwrap()` total. -/
structure IntervalLabel : Type where
  istart : BV 8
  iend : BV 8
  layer : BV 2
  parentData : String
deriving DecidableEq

/-- Junk label standing for the source's panic on
`get_interval_nodes().get(0).unwrap()` against a node without intervals;
no theorem below exercises that input region. -/
def IntervalLabel.junk : IntervalLabel := ⟨⟨0, bvPos 8⟩, ⟨0, bvPos 8⟩, ⟨0, bvPos 2⟩, ""⟩

/-- A taxonomy-tree node: its IRI text and its interval labels. -/
structure MultiTreeNode : Type where
  data : String
  intervals : List IntervalLabel
deriving DecidableEq

/-- The interval-labeled multi-tree, reduced to what
`encoded_interval_encoding` consumes: the hash-indexed node table. -/
structure MultiTree : Type where
  nodes : List (BV 16 × MultiTreeNode)
deriving DecidableEq

/-- Model of `MultiTree::get_node_by_strhash`: hash lookup, `Err(())` when the node
is absent. -/
def MultiTree.getNodeByStrhash (t : MultiTree) (h : BV 16) :
    Except Unit MultiTreeNode :=
  match t.nodes.lookup h with
  | some n => .ok n
  | none => .error ()

/-- The subject/object lookup of `encoded_interval_encoding`: a term that
is not a named node fails (`Err(())`), otherwise the tree is consulted by
IRI hash. -/
def lookupTreeTerm (t : MultiTree) (term : EncodedTerm) :
    Except Unit MultiTreeNode :=
  match term with
  | .namedNode iriId => t.getNodeByStrhash iriId
  | _ => .error ()

/-- Model of `encoded_interval_encoding` of `binary_encoder.rs`.  For
`subClassOf`/`subOrganizationOf` (class tree) and `subPropertyOf`
(property tree): look up subject and object; on success emit the type tag
(50 for classes, 51 for properties), then `(start, end)` of every subject
interval whose parent is the object node, then `(start, end, layer)` of
the object's first interval.  For `domain`/`range`/`type`: look up the
object in the class tree; on success emit tag 50, a one-byte interval
count, then every interval as `(start, end, layer)`.  Every failed lookup
returns the bytes accumulated so far — the empty string — silently. -/
def encodedIntervalEncoding (s p o : EncodedTerm)
    (classTree propertyTree : MultiTree) : List Nat :=
  match p with
  | .namedNode iriId =>
    if iriId = subClassOfHash ∨ iriId = subOrganizationOfHash then
      match lookupTreeTerm classTree s, lookupTreeTerm classTree o with
      | .ok child, .ok parent =>
        let hd := parent.intervals.headD IntervalLabel.junk
        50 ::
          (((child.intervals.filter (fun i => i.parentData == parent.data)).map
              (fun i => toBytesBE 8 i.istart.val ++ toBytesBE 8 i.iend.val)).flatten ++
            (toBytesBE 8 hd.istart.val ++ toBytesBE 8 hd.iend.val ++
              toBytesBE 2 hd.layer.val))
      | _, _ => []
    else if iriId = subPropertyOfHash then
      match lookupTreeTerm propertyTree s, lookupTreeTerm propertyTree o with
      | .ok child, .ok parent =>
        let hd := parent.intervals.headD IntervalLabel.junk
        51 ::
          (((child.intervals.filter (fun i => i.parentData == parent.data)).map
              (fun i => toBytesBE 8 i.istart.val ++ toBytesBE 8 i.iend.val)).flatten ++
            (toBytesBE 8 hd.istart.val ++ toBytesBE 8 hd.iend.val ++
              toBytesBE 2 hd.layer.val))
      | _, _ => []
    else if iriId = domainHash ∨ iriId = rangeHash ∨ iriId = rdfTypeHash then
      match lookupTreeTerm classTree o with
      | .ok node =>
        50 :: (node.intervals.length % 256) ::
          ((node.intervals.map (fun i => toBytesBE 8 i.istart.val ++
            toBytesBE 8 i.iend.val ++ toBytesBE 2 i.layer.val)).flatten)
      | _ => []
    else []
  | _ => []

/-- Model of `encode_term_triple_oxiuse_value_spo`: key = `(s,p,o)` encodings, value
= interval sidecar. -/
def encodeTermTripleOxiuseValueSpo (s p o : EncodedTerm)
    (classTree propertyTree : MultiTree) : List Nat × List Nat :=
  (writeTerm s ++ writeTerm p ++ writeTerm o,
    encodedIntervalEncoding s p o classTree propertyTree)

/-- Model of `encode_term_triple_oxiuse_value_pos`. -/
def encodeTermTripleOxiuseValuePos (s p o : EncodedTerm)
    (classTree propertyTree : MultiTree) : List Nat × List Nat :=
  (writeTerm p ++ writeTerm o ++ writeTerm s,
    encodedIntervalEncoding s p o classTree propertyTree)

/-- Model of `encode_term_triple_oxiuse_value_osp`. -/
def encodeTermTripleOxiuseValueOsp (s p o : EncodedTerm)
    (classTree propertyTree : MultiTree) : List Nat × List Nat :=
  (writeTerm o ++ writeTerm s ++ writeTerm p,
    encodedIntervalEncoding s p o classTree propertyTree)

/-- Model of `encode_term_triple_oxiuse_key_spo`: `key_vec` starts empty, the
sidecar bytes are appended into it first, and only then are the three
terms written — so the sidecar is a PREFIX of the produced key. -/
def encodeTermTripleOxiuseKeySpo (s p o : EncodedTerm)
    (classTree propertyTree : MultiTree) : List Nat :=
  encodedIntervalEncoding s p o classTree propertyTree ++
    (writeTerm s ++ writeTerm p ++ writeTerm o)

/-- Model of `encode_term_triple_oxiuse_key_pos`. -/
def encodeTermTripleOxiuseKeyPos (s p o : EncodedTerm)
    (classTree propertyTree : MultiTree) : List Nat :=
  encodedIntervalEncoding s p o classTree propertyTree ++
    (writeTerm p ++ writeTerm o ++ writeTerm s)

/-- Model of `encode_term_triple_oxiuse_key_osp`. -/
def encodeTermTripleOxiuseKeyOsp (s p o : EncodedTerm)
    (classTree propertyTree : MultiTree) : List Nat :=
  encodedIntervalEncoding s p o classTree propertyTree ++
    (writeTerm o ++ writeTerm s ++ writeTerm p)

/-- Model of `encode_term_triple_oxiuse_key` (the variant that writes the three
terms first and appends the sidecar after them).  This function is not
called by `save_oxiuse_key`; the `_spo`/`_pos`/`_osp` functions above
are. -/
def encodeTermTripleOxiuseKey (s p o : EncodedTerm)
    (classTree propertyTree : MultiTree) : List Nat :=
  (writeTerm s ++ writeTerm p ++ writeTerm o) ++
    encodedIntervalEncoding s p o classTree propertyTree

/-- The `dspo` file built by `save_oxiuse_key` from the triples set. -/
def saveOxiuseKeyDspoFile (triples : List EncodedQuad)
    (classTree propertyTree : MultiTree) : List (List Nat) :=
  buildSstForOxiuseKey (triples.map
    (fun q => encodeTermTripleOxiuseKeySpo q.subject q.predicate q.object
      classTree propertyTree))

/-- The `dpos` file built by `save_oxiuse_key`. -/
def saveOxiuseKeyDposFile (triples : List EncodedQuad)
    (classTree propertyTree : MultiTree) : List (List Nat) :=
  buildSstForOxiuseKey (triples.map
    (fun q => encodeTermTripleOxiuseKeyPos q.subject q.predicate q.object
      classTree propertyTree))

/-- The `dosp` file built by `save_oxiuse_key`. -/
def saveOxiuseKeyDospFile (triples : List EncodedQuad)
    (classTree propertyTree : MultiTree) : List (List Nat) :=
  buildSstForOxiuseKey (triples.map
    (fun q => encodeTermTripleOxiuseKeyOsp q.subject q.predicate q.object
      classTree propertyTree))

/-- The `dspo` file built by `save_oxiuse_value` ( `(key, value)` rows). -/
def saveOxiuseValueDspoFile (triples : List EncodedQuad)
    (classTree propertyTree : MultiTree) : List (List Nat × List Nat) :=
  buildSstForOxiuseValue (triples.map
    (fun q => encodeTermTripleOxiuseValueSpo q.subject q.predicate q.object
      classTree propertyTree))

/-- The `dpos` file built by `save_oxiuse_value`. -/
def saveOxiuseValueDposFile (triples : List EncodedQuad)
    (classTree propertyTree : MultiTree) : List (List Nat × List Nat) :=
  buildSstForOxiuseValue (triples.map
    (fun q => encodeTermTripleOxiuseValuePos q.subject q.predicate q.object
      classTree propertyTree))

/-- The `dosp` file built by `save_oxiuse_value`. -/
def saveOxiuseValueDospFile (triples : List EncodedQuad)
    (classTree propertyTree : MultiTree) : List (List Nat × List Nat) :=
  buildSstForOxiuseValue (triples.map
    (fun q => encodeTermTripleOxiuseValueOsp q.subject q.predicate q.object
      classTree propertyTree))

/-- The failed-lookup condition of claim C8, mirroring the branch
structure of `encoded_interval_encoding`: the predicate selects one of
the three tracked families, and the required subject/object lookup fails
(the term is not a named node, or its hash is absent from the tree). -/
def intervalLookupFails (s p o : EncodedTerm)
    (classTree propertyTree : MultiTree) : Bool :=
  match p with
  | .namedNode iriId =>
    if iriId = subClassOfHash ∨ iriId = subOrganizationOfHash then
      (lookupTreeTerm classTree s).isOk = false ||
        (lookupTreeTerm classTree o).isOk = false
    else if iriId = subPropertyOfHash then
      (lookupTreeTerm propertyTree s).isOk = false ||
        (lookupTreeTerm propertyTree o).isOk = false
    else if iriId = domainHash ∨ iriId = rangeHash ∨ iriId = rdfTypeHash then
      (lookupTreeTerm classTree o).isOk = false
    else false
  | _ => false

/-- Model of `DEFAULT_BULK_LOAD_BATCH_SIZE`. -/
def DEFAULT_BULK_LOAD_BATCH_SIZE : Nat := 1000000

/-- Model of `MAX_BULK_LOAD_BATCH_SIZE`. -/
def MAX_BULK_LOAD_BATCH_SIZE : Nat := 100000000

/-- The `cpu_count` computation of `StorageBulkLoader::load`:
`min(4, system.physical_core_count().unwrap_or(2))`. -/
def bulkCpuCount (physCores : Option Nat) : Nat := min 4 (physCores.getD 2)

/-- The `num_threads` computation of `StorageBulkLoader::load` (the same
expression appears in `load_oxiuse_value` and `load_oxiuse_key`): the
user override when set; else, under a memory cap of `m` megabytes,
`min(cpu_count, m * 1000 / DEFAULT_BULK_LOAD_BATCH_SIZE)`; else
`cpu_count` — the chosen value floored at 2. -/
def bulkNumThreads (physCores numThreadsOpt maxMemMB : Option Nat) : Nat :=
  max
    (match numThreadsOpt with
     | some n => n
     | none =>
       match maxMemMB with
       | some m =>
         min (bulkCpuCount physCores) (m * 1000 / DEFAULT_BULK_LOAD_BATCH_SIZE)
       | none => bulkCpuCount physCores)
    2

/-- The `batch_size` computation of `StorageBulkLoader::load`: under a
memory cap `max(1000, m * 1000 / num_threads)`, otherwise
`max(free_memory / num_threads, DEFAULT_BULK_LOAD_BATCH_SIZE)`, the
result capped at `MAX_BULK_LOAD_BATCH_SIZE`. -/
def bulkBatchSize (physCores numThreadsOpt maxMemMB : Option Nat)
    (freeMem : Nat) : Nat :=
  min
    (match maxMemMB with
     | some m =>
       max 1000 (m * 1000 / bulkNumThreads physCores numThreadsOpt maxMemMB)
     | none =>
       max (freeMem / bulkNumThreads physCores numThreadsOpt maxMemMB)
         DEFAULT_BULK_LOAD_BATCH_SIZE)
    MAX_BULK_LOAD_BATCH_SIZE

/-- The thread-count formula exactly as claim C9 words it:
`max(2, min(C, user_override | mem_cap/1e6 | C))`, with `C` the physical
core count capped at 4 and the memory cap (given in megabytes) read in
bytes so that `mem_cap/1e6` is the megabyte count. -/
def claimNumThreads (physCores numThreadsOpt maxMemMB : Option Nat) : Nat :=
  max 2 (min (bulkCpuCount physCores)
    (match numThreadsOpt with
     | some n => n
     | none =>
       match maxMemMB with
       | some m => m * 1000000 / 1000000
       | none => bulkCpuCount physCores))

/-- The batch-size formula exactly as claim C9 words it:
`min(MAX_BATCH, max(DEFAULT_BATCH, user_override | free_mem/thread_count))`,
reading the memory-cap-derived quota as the override alternative. -/
def claimBatchSize (physCores numThreadsOpt maxMemMB : Option Nat)
    (freeMem : Nat) : Nat :=
  min MAX_BULK_LOAD_BATCH_SIZE
    (max DEFAULT_BULK_LOAD_BATCH_SIZE
      (match maxMemMB with
       | some m => m * 1000 / claimNumThreads physCores numThreadsOpt maxMemMB
       | none => freeMem / claimNumThreads physCores numThreadsOpt maxMemMB))

/-- C9 counterexample: the claim's formulas disagree with the code on
concrete configurations.  With 4 physical cores and a user thread
override of 10, `StorageBulkLoader::load` computes `max(10, 2) = 10`
threads while the claim's `max(2, min(C, user_override))` yields 4: the
code never clamps the user override to the core count.  With a 1 MB
memory cap the code's batch size is `min(max(1000, 1000/2), 1e8) = 1000`
while the claim's `max(DEFAULT_BATCH, …)` can never fall below
1,000,000. -/
theorem c9_counterexample :
    bulkNumThreads (some 4) (some 10) none = 10 ∧
      claimNumThreads (some 4) (some 10) none = 4 ∧
      bulkBatchSize (some 4) none (some 1) 0 = 1000 ∧
      claimBatchSize (some 4) none (some 1) 0 = 1000000 := by
  decide

/-- C9 (amended): the bulk loader computes its thread count as
`max(2, T)` where `T` is the user override when set, else
`min(C, mem_cap_MB * 1000 / 1,000,000)` under a memory cap, else `C`
(with `C` the physical core count capped at 4, defaulting to 2 cores);
the user override is NOT clamped to the core count.  The batch size is
`min(MAX_BATCH, B)` where `B = max(1000, mem_cap_MB * 1000 /
thread_count)` under a memory cap — floored at 1000, not at
`DEFAULT_BATCH` — and `B = max(free_mem / thread_count, DEFAULT_BATCH)`
otherwise; in particular the thread count is always at least 2, the
batch size never exceeds `MAX_BATCH`, and without a memory cap it is at
least `DEFAULT_BATCH`. -/
theorem c9_worker_sizing (physCores numThreadsOpt maxMemMB : Option Nat)
    (freeMem : Nat) :
    bulkNumThreads physCores numThreadsOpt maxMemMB =
      max 2
        (match numThreadsOpt with
         | some n => n
         | none =>
           match maxMemMB with
           | some m => min (min 4 (physCores.getD 2)) (m * 1000 / 1000000)
           | none => min 4 (physCores.getD 2)) ∧
      2 ≤ bulkNumThreads physCores numThreadsOpt maxMemMB ∧
      bulkBatchSize physCores numThreadsOpt maxMemMB freeMem =
        min 100000000
          (match maxMemMB with
           | some m =>
             max 1000 (m * 1000 / bulkNumThreads physCores numThreadsOpt maxMemMB)
           | none =>
             max (freeMem / bulkNumThreads physCores numThreadsOpt maxMemMB)
               1000000) ∧
      bulkBatchSize physCores numThreadsOpt maxMemMB freeMem ≤ 100000000 ∧
      (maxMemMB = none →
        1000000 ≤ bulkBatchSize physCores numThreadsOpt maxMemMB freeMem) := by
  refine ⟨?_, ?_, ?_, ?_, ?_⟩
  · unfold bulkNumThreads
    rw [Nat.max_comm]
    cases numThreadsOpt <;> cases maxMemMB <;> rfl
  · unfold bulkNumThreads
    exact Nat.le_max_right _ 2
  · unfold bulkBatchSize
    rw [Nat.min_comm]
    simp only [DEFAULT_BULK_LOAD_BATCH_SIZE, MAX_BULK_LOAD_BATCH_SIZE]
  · unfold bulkBatchSize
    exact Nat.min_le_right _ _
  · intro h
    subst h
    unfold bulkBatchSize
    have h₁ : (1000000 : Nat) ≤
        max (freeMem / bulkNumThreads physCores numThreadsOpt none)
          DEFAULT_BULK_LOAD_BATCH_SIZE :=
      Nat.le_max_right _ _
    have h₂ : (1000000 : Nat) ≤ MAX_BULK_LOAD_BATCH_SIZE := by
      rw [MAX_BULK_LOAD_BATCH_SIZE]; omega
    exact le_min h₁ h₂

/-- C9 witness: the amended statement evaluated on a concrete
configuration (no cores reported, no overrides, 3 GB free memory). -/
theorem c9_worker_sizing_witness :
    bulkNumThreads none none none = 2 ∧
      bulkBatchSize none none none 3000000000 = 100000000 ∧
      (none = (none : Option Nat) →
        1000000 ≤ bulkBatchSize none none none 3000000000) :=
  ⟨by decide, by decide, (c9_worker_sizing none none none 3000000000).2.2.2.2⟩

instance {ε α : Type _} [DecidableEq ε] [DecidableEq α] :
    DecidableEq (Except ε α) := fun x y =>
  match x, y with
  | .error a, .error b =>
    if h : a = b then isTrue (h ▸ rfl)
    else isFalse (fun he => h (by injection he))
  | .ok a, .ok b =>
    if h : a = b then isTrue (h ▸ rfl)
    else isFalse (fun he => h (by injection he))
  | .error _, .ok _ => isFalse (fun he => Except.noConfusion he)
  | .ok _, .error _ => isFalse (fun he => Except.noConfusion he)

/-- Shorthand for building a `w`-byte value from a numeral. -/
def bv (w n : Nat) : BV w := ⟨n % 256 ^ w, Nat.mod_lt _ (bvPos w)⟩

/-- C1 counterexample: the claim quantifies over all `EncodedTerm`
variants including `DefaultGraph`, but `write_term` emits nothing for
`DefaultGraph` and `read_term` on the resulting empty buffer fails with a
short-read error instead of returning `DefaultGraph`. -/
theorem c1_counterexample :
    readTerm (writeTerm EncodedTerm.defaultGraph) ≠
      Except.ok (EncodedTerm.defaultGraph, ([] : List Nat)) := by
  decide

/-- C1 (amended): for every encoded term `t` in which `DefaultGraph` does
not occur (the `DefaultGraph` variant itself, and triples containing it,
excluded — those are exactly the terms the writer ever serializes
standalone), decoding the byte string produced by the term encoder
yields exactly `t` with no bytes left over: `read_term ∘ write_term`
is the identity, including on recursively nested `Triple` terms. -/
theorem c1_term_roundtrip (t : EncodedTerm)
    (h : containsDefaultGraph t = false) :
    readTerm (writeTerm t) = .ok (t, []) := by
  have k := readTerm_writeTerm t [] h
  simpa using k

/-- C1 witness: the round trip evaluated on a concrete nested triple
term. -/
theorem c1_term_roundtrip_witness :
    containsDefaultGraph
        (EncodedTerm.triple (.namedNode (bv 16 7))
          (.namedNode (bv 16 8)) (.integerLiteral (bv 8 300))) =
      false ∧
      readTerm (writeTerm (EncodedTerm.triple (.namedNode (bv 16 7))
          (.namedNode (bv 16 8)) (.integerLiteral (bv 8 300)))) =
        .ok (EncodedTerm.triple (.namedNode (bv 16 7))
          (.namedNode (bv 16 8)) (.integerLiteral (bv 8 300)), []) :=
  ⟨by decide, c1_term_roundtrip _ (by decide)⟩

theorem bindErr {ε α β : Type _} (e : ε) (f : α → Except ε β) :
    (Except.error e >>= f) = Except.error e := rfl

/-- C5: `quads_for_pattern` scans exactly the column family and key
prefix of the dispatch table, for every pattern whose graph position is
unbound or bound to a named graph: unbound-graph patterns chain the
default-graph index with the corresponding named-graph index under the
same prefix; graph-bound patterns scan the single g-first (or `spog`)
index whose key has the bound terms as a contiguous prefix, with `s,o`
probed in `(g,o,s)` order on `gosp` and `p,o` in `(g,p,o)` order on
`gpos`. -/
theorem c5_pattern_dispatch (s p o gn : EncodedTerm)
    (hgn : gn ≠ .defaultGraph) :
    quadsForPattern none none none none = ⟨(.dspo, []), some (.gspo, [])⟩ ∧
    quadsForPattern (some s) none none none =
      ⟨(.dspo, encodeTerm s), some (.spog, encodeTerm s)⟩ ∧
    quadsForPattern none (some p) none none =
      ⟨(.dpos, encodeTerm p), some (.posg, encodeTerm p)⟩ ∧
    quadsForPattern none none (some o) none =
      ⟨(.dosp, encodeTerm o), some (.ospg, encodeTerm o)⟩ ∧
    quadsForPattern (some s) (some p) none none =
      ⟨(.dspo, encodeTermPair s p), some (.spog, encodeTermPair s p)⟩ ∧
    quadsForPattern (some s) none (some o) none =
      ⟨(.dosp, encodeTermPair o s), some (.ospg, encodeTermPair o s)⟩ ∧
    quadsForPattern none (some p) (some o) none =
      ⟨(.dpos, encodeTermPair p o), some (.posg, encodeTermPair p o)⟩ ∧
    quadsForPattern (some s) (some p) (some o) none =
      ⟨(.dspo, encodeTermTriple s p o), some (.spog, encodeTermTriple s p o)⟩ ∧
    quadsForPattern none none none (some gn) =
      ⟨(.gspo, encodeTerm gn), none⟩ ∧
    quadsForPattern (some s) none none (some gn) =
      ⟨(.gspo, encodeTermPair gn s), none⟩ ∧
    quadsForPattern none (some p) none (some gn) =
      ⟨(.gpos, encodeTermPair gn p), none⟩ ∧
    quadsForPattern none none (some o) (some gn) =
      ⟨(.gosp, encodeTermPair gn o), none⟩ ∧
    quadsForPattern (some s) (some p) none (some gn) =
      ⟨(.gspo, encodeTermTriple gn s p), none⟩ ∧
    quadsForPattern (some s) none (some o) (some gn) =
      ⟨(.gosp, encodeTermTriple gn o s), none⟩ ∧
    quadsForPattern none (some p) (some o) (some gn) =
      ⟨(.gpos, encodeTermTriple gn p o), none⟩ ∧
    quadsForPattern (some s) (some p) (some o) (some gn) =
      ⟨(.gspo, encodeTermQuad gn s p o), none⟩ := by
  refine ⟨?_, ?_, ?_, ?_, ?_, ?_, ?_, ?_, ?_, ?_, ?_, ?_, ?_, ?_, ?_, ?_⟩ <;>
    simp [quadsForPattern, quadsAll, quadsForSubject, quadsForSubjectPredicate,
      quadsForSubjectPredicateObject, quadsForSubjectObject, quadsForPredicate,
      quadsForPredicateObject, quadsForObject, quadsForGraph,
      quadsForSubjectGraph, quadsForSubjectPredicateGraph,
      quadsForSubjectPredicateObjectGraph, quadsForSubjectObjectGraph,
      quadsForPredicateGraph, quadsForPredicateObjectGraph, quadsForObjectGraph,
      chainedNew, chainedPair, spogQuads, posgQuads, ospgQuads, gspoQuads,
      gposQuads, gospQuads, dspoQuads, dposQuads, dospQuads, hgn]

/-- C5 witness: the dispatch table evaluated at concrete bound terms. -/
theorem c5_pattern_dispatch_witness :
    ((EncodedTerm.namedNode (bv 16 4)) ≠ EncodedTerm.defaultGraph) ∧
      quadsForPattern (some (.namedNode (bv 16 1))) none
          (some (.namedNode (bv 16 3))) (some (.namedNode (bv 16 4))) =
        ⟨(.gosp, encodeTermTriple (.namedNode (bv 16 4)) (.namedNode (bv 16 3))
          (.namedNode (bv 16 1))), none⟩ :=
  ⟨by decide,
    ((c5_pattern_dispatch (.namedNode (bv 16 1)) (.namedNode (bv 16 2))
      (.namedNode (bv 16 3)) (.namedNode (bv 16 4))
      (by decide)).2.2.2.2.2.2.2.2.2.2.2.2.2.1)⟩

theorem readDspoQuad_graphName {l : List Nat} {q : EncodedQuad}
    (h : readDspoQuad l = .ok q) : q.graphName = .defaultGraph := by
  rw [readDspoQuad] at h
  cases h₁ : readTerm l with
  | error e => rw [h₁, bindErr] at h; exact Except.noConfusion h
  | ok v₁ =>
    obtain ⟨t₁, r₁⟩ := v₁
    simp only [h₁, bindOk] at h
    cases h₂ : readTerm r₁ with
    | error e => simp only [h₂, bindErr] at h; exact Except.noConfusion h
    | ok v₂ =>
      obtain ⟨t₂, r₂⟩ := v₂
      simp only [h₂, bindOk] at h
      cases h₃ : readTerm r₂ with
      | error e => simp only [h₃, bindErr] at h; exact Except.noConfusion h
      | ok v₃ =>
        obtain ⟨t₃, r₃⟩ := v₃
        simp only [h₃, bindOk] at h
        injection h with h'
        rw [← h']

theorem readDposQuad_graphName {l : List Nat} {q : EncodedQuad}
    (h : readDposQuad l = .ok q) : q.graphName = .defaultGraph := by
  rw [readDposQuad] at h
  cases h₁ : readTerm l with
  | error e => rw [h₁, bindErr] at h; exact Except.noConfusion h
  | ok v₁ =>
    obtain ⟨t₁, r₁⟩ := v₁
    simp only [h₁, bindOk] at h
    cases h₂ : readTerm r₁ with
    | error e => simp only [h₂, bindErr] at h; exact Except.noConfusion h
    | ok v₂ =>
      obtain ⟨t₂, r₂⟩ := v₂
      simp only [h₂, bindOk] at h
      cases h₃ : readTerm r₂ with
      | error e => simp only [h₃, bindErr] at h; exact Except.noConfusion h
      | ok v₃ =>
        obtain ⟨t₃, r₃⟩ := v₃
        simp only [h₃, bindOk] at h
        injection h with h'
        rw [← h']

theorem readDospQuad_graphName {l : List Nat} {q : EncodedQuad}
    (h : readDospQuad l = .ok q) : q.graphName = .defaultGraph := by
  rw [readDospQuad] at h
  cases h₁ : readTerm l with
  | error e => rw [h₁, bindErr] at h; exact Except.noConfusion h
  | ok v₁ =>
    obtain ⟨t₁, r₁⟩ := v₁
    simp only [h₁, bindOk] at h
    cases h₂ : readTerm r₁ with
    | error e => simp only [h₂, bindErr] at h; exact Except.noConfusion h
    | ok v₂ =>
      obtain ⟨t₂, r₂⟩ := v₂
      simp only [h₂, bindOk] at h
      cases h₃ : readTerm r₂ with
      | error e => simp only [h₃, bindErr] at h; exact Except.noConfusion h
      | ok v₃ =>
        obtain ⟨t₃, r₃⟩ := v₃
        simp only [h₃, bindOk] at h
        injection h with h'
        rw [← h']

/-- C10: for every pattern whose graph position is bound to the default
graph, `quads_for_pattern` issues exactly one scan, on the default-graph
index determined by the bound fields (`dspo` for ∅, s, s+p, s+p+o; `dpos`
for p, p+o; `dosp` for o and — in `(o,s)` order — s+o), touching no
named-graph index; and every key decoded from `dspo`/`dpos`/`dosp` comes
back with `DefaultGraph` as the quad's graph name. -/
theorem c10_default_graph_dispatch (s p o : EncodedTerm) (l : List Nat)
    (q : EncodedQuad) :
    quadsForPattern none none none (some .defaultGraph) =
      ⟨(.dspo, []), none⟩ ∧
    quadsForPattern (some s) none none (some .defaultGraph) =
      ⟨(.dspo, encodeTerm s), none⟩ ∧
    quadsForPattern (some s) (some p) none (some .defaultGraph) =
      ⟨(.dspo, encodeTermPair s p), none⟩ ∧
    quadsForPattern (some s) (some p) (some o) (some .defaultGraph) =
      ⟨(.dspo, encodeTermTriple s p o), none⟩ ∧
    quadsForPattern none (some p) none (some .defaultGraph) =
      ⟨(.dpos, encodeTerm p), none⟩ ∧
    quadsForPattern none (some p) (some o) (some .defaultGraph) =
      ⟨(.dpos, encodeTermPair p o), none⟩ ∧
    quadsForPattern none none (some o) (some .defaultGraph) =
      ⟨(.dosp, encodeTerm o), none⟩ ∧
    quadsForPattern (some s) none (some o) (some .defaultGraph) =
      ⟨(.dosp, encodeTermPair o s), none⟩ ∧
    (cfDecode .dspo l = .ok q → q.graphName = .defaultGraph) ∧
    (cfDecode .dpos l = .ok q → q.graphName = .defaultGraph) ∧
    (cfDecode .dosp l = .ok q → q.graphName = .defaultGraph) := by
  refine ⟨?_, ?_, ?_, ?_, ?_, ?_, ?_, ?_, ?_, ?_, ?_⟩
  · simp [quadsForPattern, quadsForGraph, chainedNew, dspoQuads]
  · simp [quadsForPattern, quadsForSubjectGraph, chainedNew, dspoQuads]
  · simp [quadsForPattern, quadsForSubjectPredicateGraph, chainedNew, dspoQuads]
  · simp [quadsForPattern, quadsForSubjectPredicateObjectGraph, chainedNew,
      dspoQuads]
  · simp [quadsForPattern, quadsForPredicateGraph, chainedNew, dposQuads]
  · simp [quadsForPattern, quadsForPredicateObjectGraph, chainedNew, dposQuads]
  · simp [quadsForPattern, quadsForObjectGraph, chainedNew, dospQuads]
  · simp [quadsForPattern, quadsForSubjectObjectGraph, chainedNew, dospQuads]
  · exact fun h => readDspoQuad_graphName h
  · exact fun h => readDposQuad_graphName h
  · exact fun h => readDospQuad_graphName h

/-- C10 witness: the default-graph dispatch and the decoder's graph-name
behaviour evaluated on a concrete triple key. -/
theorem c10_default_graph_dispatch_witness :
    cfDecode .dspo (writeSpoQuad ⟨.namedNode (bv 16 1), .namedNode (bv 16 2),
        .namedNode (bv 16 3), .defaultGraph⟩) =
      .ok ⟨.namedNode (bv 16 1), .namedNode (bv 16 2), .namedNode (bv 16 3),
        .defaultGraph⟩ ∧
      (⟨.namedNode (bv 16 1), .namedNode (bv 16 2), .namedNode (bv 16 3),
        .defaultGraph⟩ : EncodedQuad).graphName = .defaultGraph :=
  ⟨by decide,
    (c10_default_graph_dispatch (.namedNode (bv 16 1)) (.namedNode (bv 16 2))
      (.namedNode (bv 16 3))
      (writeSpoQuad ⟨.namedNode (bv 16 1), .namedNode (bv 16 2),
        .namedNode (bv 16 3), .defaultGraph⟩)
      ⟨.namedNode (bv 16 1), .namedNode (bv 16 2), .namedNode (bv 16 3),
        .defaultGraph⟩).2.2.2.2.2.2.2.2.1 (by decide)⟩

/-- A concrete default-graph quad for witnesses. -/
def sampleDefaultQuad : EncodedQuad :=
  ⟨.namedNode (bv 16 1), .namedNode (bv 16 2), .namedNode (bv 16 3),
    .defaultGraph⟩

/-- A concrete named-graph quad for witnesses. -/
def sampleNamedQuad : EncodedQuad :=
  ⟨.namedNode (bv 16 1), .namedNode (bv 16 2), .namedNode (bv 16 3),
    .namedNode (bv 16 4)⟩

theorem insert_contains_false {st : StorageState} {q : EncodedQuad}
    (h : storageContains st q = true) :
    StorageWriter.insert st q = (false, st) := by
  by_cases hg : q.graphName = .defaultGraph
  · unfold storageContains at h
    rw [if_pos hg, decide_eq_true_eq] at h
    unfold StorageWriter.insert
    rw [if_pos hg, if_pos h]
  · unfold storageContains at h
    rw [if_neg hg, decide_eq_true_eq] at h
    unfold StorageWriter.insert
    rw [if_neg hg, if_pos h]

theorem insert_new_result {st : StorageState} {q : EncodedQuad}
    (h : storageContains st q = false) :
    (StorageWriter.insert st q).1 = true ∧
      (q.graphName = .defaultGraph →
        writeSpoQuad q ∈ (StorageWriter.insert st q).2.dspo ∧
          writePosQuad q ∈ (StorageWriter.insert st q).2.dpos ∧
          writeOspQuad q ∈ (StorageWriter.insert st q).2.dosp) ∧
      (q.graphName ≠ .defaultGraph →
        writeSpogQuad q ∈ (StorageWriter.insert st q).2.spog ∧
          writePosgQuad q ∈ (StorageWriter.insert st q).2.posg ∧
          writeOspgQuad q ∈ (StorageWriter.insert st q).2.ospg ∧
          writeGspoQuad q ∈ (StorageWriter.insert st q).2.gspo ∧
          writeGposQuad q ∈ (StorageWriter.insert st q).2.gpos ∧
          writeGospQuad q ∈ (StorageWriter.insert st q).2.gosp) := by
  by_cases hg : q.graphName = .defaultGraph
  · unfold storageContains at h
    rw [if_pos hg, decide_eq_false_iff_not] at h
    unfold StorageWriter.insert
    rw [if_pos hg, if_neg h]
    exact ⟨rfl,
      fun _ => ⟨Finset.mem_insert_self _ _, Finset.mem_insert_self _ _,
        Finset.mem_insert_self _ _⟩,
      fun hn => absurd hg hn⟩
  · unfold storageContains at h
    rw [if_neg hg, decide_eq_false_iff_not] at h
    unfold StorageWriter.insert
    rw [if_neg hg, if_neg h]
    refine ⟨?_, fun hd => absurd hd hg, fun _ => ?_⟩
    · by_cases hgm : writeTerm q.graphName ∈ st.graphs <;> simp [hgm]
    · by_cases hgm : writeTerm q.graphName ∈ st.graphs <;>
        simp [hgm, Finset.mem_insert_self]

theorem contains_after_insert (st : StorageState) (q : EncodedQuad) :
    storageContains (StorageWriter.insert st q).2 q = true := by
  by_cases hg : q.graphName = .defaultGraph
  · by_cases hmem : writeSpoQuad q ∈ st.dspo
    · unfold StorageWriter.insert
      rw [if_pos hg, if_pos hmem]
      unfold storageContains
      rw [if_pos hg]
      simp [hmem]
    · unfold StorageWriter.insert
      rw [if_pos hg, if_neg hmem]
      unfold storageContains
      rw [if_pos hg]
      simp
  · by_cases hmem : writeSpogQuad q ∈ st.spog
    · unfold StorageWriter.insert
      rw [if_neg hg, if_pos hmem]
      unfold storageContains
      rw [if_neg hg]
      simp [hmem]
    · unfold StorageWriter.insert
      rw [if_neg hg, if_neg hmem]
      unfold storageContains
      rw [if_neg hg]
      by_cases hgm : writeTerm q.graphName ∈ st.graphs <;> simp [hgm]

/-- C2: `StorageWriter::insert` returns `false` and leaves every column
family unchanged when the quad is already present (`dspo` key present
for a default-graph quad, `spog` key present for a named-graph quad);
otherwise it returns `true` after writing the quad's key into all three
default-graph indexes or all six named-graph indexes; in particular a
second insert of the same quad returns `false` with no row-count
change. -/
theorem c2_insert_semantics (st : StorageState) (q : EncodedQuad) :
    (storageContains st q = true → StorageWriter.insert st q = (false, st)) ∧
      (storageContains st q = false →
        (StorageWriter.insert st q).1 = true ∧
          (q.graphName = .defaultGraph →
            writeSpoQuad q ∈ (StorageWriter.insert st q).2.dspo ∧
              writePosQuad q ∈ (StorageWriter.insert st q).2.dpos ∧
              writeOspQuad q ∈ (StorageWriter.insert st q).2.dosp) ∧
          (q.graphName ≠ .defaultGraph →
            writeSpogQuad q ∈ (StorageWriter.insert st q).2.spog ∧
              writePosgQuad q ∈ (StorageWriter.insert st q).2.posg ∧
              writeOspgQuad q ∈ (StorageWriter.insert st q).2.ospg ∧
              writeGspoQuad q ∈ (StorageWriter.insert st q).2.gspo ∧
              writeGposQuad q ∈ (StorageWriter.insert st q).2.gpos ∧
              writeGospQuad q ∈ (StorageWriter.insert st q).2.gosp)) ∧
      (StorageWriter.insert (StorageWriter.insert st q).2 q).1 = false ∧
      rowCounts (StorageWriter.insert (StorageWriter.insert st q).2 q).2 =
        rowCounts (StorageWriter.insert st q).2 := by
  have h₂ := insert_contains_false (contains_after_insert st q)
  exact ⟨fun h => insert_contains_false h, fun h => insert_new_result h,
    by rw [h₂], by rw [h₂]⟩

/-- C2 witness: inserting a concrete triple into the empty store, twice. -/
theorem c2_insert_semantics_witness :
    storageContains emptyStorage sampleDefaultQuad = false ∧
      (StorageWriter.insert emptyStorage sampleDefaultQuad).1 = true ∧
      (StorageWriter.insert
        (StorageWriter.insert emptyStorage sampleDefaultQuad).2
        sampleDefaultQuad).1 = false ∧
      rowCounts (StorageWriter.insert
        (StorageWriter.insert emptyStorage sampleDefaultQuad).2
        sampleDefaultQuad).2 =
        rowCounts (StorageWriter.insert emptyStorage sampleDefaultQuad).2 :=
  ⟨by decide,
    ((c2_insert_semantics emptyStorage sampleDefaultQuad).2.1 (by decide)).1,
    (c2_insert_semantics emptyStorage sampleDefaultQuad).2.2.1,
    (c2_insert_semantics emptyStorage sampleDefaultQuad).2.2.2⟩

/-- C6: `StorageWriter::remove` (via `remove_encoded`) never deletes any
entry from `id2str` and never deletes any entry from `graphs` — both
column families come back exactly unchanged, so after removing a
named-graph quad its graph name is still a member of `graphs` (only
`remove_encoded_named_graph` deletes there). -/
theorem c6_remove_preserves_id2str_graphs (st : StorageState)
    (q : EncodedQuad) :
    (StorageWriter.removeEncoded st q).2.id2str = st.id2str ∧
      (StorageWriter.removeEncoded st q).2.graphs = st.graphs ∧
      (writeTerm q.graphName ∈ st.graphs →
        writeTerm q.graphName ∈ (StorageWriter.removeEncoded st q).2.graphs) := by
  have hgr : (StorageWriter.removeEncoded st q).2.graphs = st.graphs := by
    unfold StorageWriter.removeEncoded
    split <;> split <;> rfl
  have hid : (StorageWriter.removeEncoded st q).2.id2str = st.id2str := by
    unfold StorageWriter.removeEncoded
    split <;> split <;> rfl
  exact ⟨hid, hgr, fun h => hgr ▸ h⟩

/-- C6 witness: removing a concrete named-graph quad that is present
leaves its graph name in `graphs`. -/
theorem c6_remove_preserves_witness :
    writeTerm sampleNamedQuad.graphName ∈
        (StorageWriter.insert emptyStorage sampleNamedQuad).2.graphs ∧
      writeTerm sampleNamedQuad.graphName ∈
        (StorageWriter.removeEncoded
          (StorageWriter.insert emptyStorage sampleNamedQuad).2
          sampleNamedQuad).2.graphs :=
  ⟨by decide,
    (c6_remove_preserves_id2str_graphs
      (StorageWriter.insert emptyStorage sampleNamedQuad).2
      sampleNamedQuad).2.2 (by decide)⟩

/-- C3: after every sequence of `StorageWriter::insert` / `remove`
operations on well-formed quads starting from the empty store, the three
default-graph indexes have equal row counts, the six named-graph indexes
have equal row counts, and there are sets `T` of triples and `Q` of
named quads such that every index holds exactly the corresponding
permutation keys of its set — so every row of one index is present,
under the permutation of the same quad, in the other indexes of its
group — and every named quad's graph name is present in `graphs`. -/
theorem c3_index_coherence (ops : List StoreOp)
    (hwf : ∀ op ∈ ops, wfOp op = true) :
    ((applyOps ops emptyStorage).dspo.card =
        (applyOps ops emptyStorage).dpos.card ∧
      (applyOps ops emptyStorage).dspo.card =
        (applyOps ops emptyStorage).dosp.card ∧
      (applyOps ops emptyStorage).gspo.card =
        (applyOps ops emptyStorage).gpos.card ∧
      (applyOps ops emptyStorage).gspo.card =
        (applyOps ops emptyStorage).gosp.card ∧
      (applyOps ops emptyStorage).gspo.card =
        (applyOps ops emptyStorage).spog.card ∧
      (applyOps ops emptyStorage).gspo.card =
        (applyOps ops emptyStorage).posg.card ∧
      (applyOps ops emptyStorage).gspo.card =
        (applyOps ops emptyStorage).ospg.card) ∧
      ∃ T Q : Finset EncodedQuad,
        (applyOps ops emptyStorage).dspo = T.image writeSpoQuad ∧
        (applyOps ops emptyStorage).dpos = T.image writePosQuad ∧
        (applyOps ops emptyStorage).dosp = T.image writeOspQuad ∧
        (applyOps ops emptyStorage).spog = Q.image writeSpogQuad ∧
        (applyOps ops emptyStorage).posg = Q.image writePosgQuad ∧
        (applyOps ops emptyStorage).ospg = Q.image writeOspgQuad ∧
        (applyOps ops emptyStorage).gspo = Q.image writeGspoQuad ∧
        (applyOps ops emptyStorage).gpos = Q.image writeGposQuad ∧
        (applyOps ops emptyStorage).gosp = Q.image writeGospQuad ∧
        ∀ q ∈ Q, writeTerm q.graphName ∈ (applyOps ops emptyStorage).graphs := by
  obtain ⟨heq, hwfA⟩ := applyOps_sim ops emptyAbs emptyAbs_wf hwf
  rw [concretize_emptyAbs] at heq
  rw [heq]
  obtain ⟨hD, hN, _, hGN⟩ := hwfA
  have cardD : ∀ (f : EncodedQuad → List Nat),
      (∀ x₁ x₂, wfQuad x₁ = true → wfQuad x₂ = true →
        x₁.graphName = .defaultGraph → x₂.graphName = .defaultGraph →
        f x₁ = f x₂ → x₁ = x₂) →
      ((absApplyOps ops emptyAbs).dtriples.image f).card =
        (absApplyOps ops emptyAbs).dtriples.card := by
    intro f hf
    apply Finset.card_image_of_injOn
    intro x hx y hy he
    have hx' := hD x (Finset.mem_coe.mp hx)
    have hy' := hD y (Finset.mem_coe.mp hy)
    exact hf x y hx'.1 hy'.1 hx'.2 hy'.2 he
  have cardN : ∀ (f : EncodedQuad → List Nat),
      (∀ x₁ x₂, wfQuad x₁ = true → wfQuad x₂ = true →
        x₁.graphName ≠ .defaultGraph → x₂.graphName ≠ .defaultGraph →
        f x₁ = f x₂ → x₁ = x₂) →
      ((absApplyOps ops emptyAbs).nquads.image f).card =
        (absApplyOps ops emptyAbs).nquads.card := by
    intro f hf
    apply Finset.card_image_of_injOn
    intro x hx y hy he
    have hx' := hN x (Finset.mem_coe.mp hx)
    have hy' := hN y (Finset.mem_coe.mp hy)
    exact hf x y hx'.1 hy'.1 hx'.2 hy'.2 he
  refine ⟨⟨?_, ?_, ?_, ?_, ?_, ?_, ?_⟩,
    (absApplyOps ops emptyAbs).dtriples, (absApplyOps ops emptyAbs).nquads,
    rfl, rfl, rfl, rfl, rfl, rfl, rfl, rfl, rfl,
    fun q hq => Finset.mem_image_of_mem _ (hGN q hq)⟩
  · rw [show (concretize (absApplyOps ops emptyAbs)).dspo =
        ((absApplyOps ops emptyAbs).dtriples.image writeSpoQuad) from rfl,
      show (concretize (absApplyOps ops emptyAbs)).dpos =
        ((absApplyOps ops emptyAbs).dtriples.image writePosQuad) from rfl,
      cardD writeSpoQuad (fun x₁ x₂ a b c d e => writeSpoQuad_inj a b c d e),
      cardD writePosQuad (fun x₁ x₂ a b c d e => writePosQuad_inj a b c d e)]
  · rw [show (concretize (absApplyOps ops emptyAbs)).dspo =
        ((absApplyOps ops emptyAbs).dtriples.image writeSpoQuad) from rfl,
      show (concretize (absApplyOps ops emptyAbs)).dosp =
        ((absApplyOps ops emptyAbs).dtriples.image writeOspQuad) from rfl,
      cardD writeSpoQuad (fun x₁ x₂ a b c d e => writeSpoQuad_inj a b c d e),
      cardD writeOspQuad (fun x₁ x₂ a b c d e => writeOspQuad_inj a b c d e)]
  · rw [show (concretize (absApplyOps ops emptyAbs)).gspo =
        ((absApplyOps ops emptyAbs).nquads.image writeGspoQuad) from rfl,
      show (concretize (absApplyOps ops emptyAbs)).gpos =
        ((absApplyOps ops emptyAbs).nquads.image writeGposQuad) from rfl,
      cardN writeGspoQuad (fun x₁ x₂ a b c d e => writeGspoQuad_inj a b c d e),
      cardN writeGposQuad (fun x₁ x₂ a b c d e => writeGposQuad_inj a b c d e)]
  · rw [show (concretize (absApplyOps ops emptyAbs)).gspo =
        ((absApplyOps ops emptyAbs).nquads.image writeGspoQuad) from rfl,
      show (concretize (absApplyOps ops emptyAbs)).gosp =
        ((absApplyOps ops emptyAbs).nquads.image writeGospQuad) from rfl,
      cardN writeGspoQuad (fun x₁ x₂ a b c d e => writeGspoQuad_inj a b c d e),
      cardN writeGospQuad (fun x₁ x₂ a b c d e => writeGospQuad_inj a b c d e)]
  · rw [show (concretize (absApplyOps ops emptyAbs)).gspo =
        ((absApplyOps ops emptyAbs).nquads.image writeGspoQuad) from rfl,
      show (concretize (absApplyOps ops emptyAbs)).spog =
        ((absApplyOps ops emptyAbs).nquads.image writeSpogQuad) from rfl,
      cardN writeGspoQuad (fun x₁ x₂ a b c d e => writeGspoQuad_inj a b c d e),
      cardN writeSpogQuad (fun x₁ x₂ a b c d e => writeSpogQuad_inj a b c d e)]
  · rw [show (concretize (absApplyOps ops emptyAbs)).gspo =
        ((absApplyOps ops emptyAbs).nquads.image writeGspoQuad) from rfl,
      show (concretize (absApplyOps ops emptyAbs)).posg =
        ((absApplyOps ops emptyAbs).nquads.image writePosgQuad) from rfl,
      cardN writeGspoQuad (fun x₁ x₂ a b c d e => writeGspoQuad_inj a b c d e),
      cardN writePosgQuad (fun x₁ x₂ a b c d e => writePosgQuad_inj a b c d e)]
  · rw [show (concretize (absApplyOps ops emptyAbs)).gspo =
        ((absApplyOps ops emptyAbs).nquads.image writeGspoQuad) from rfl,
      show (concretize (absApplyOps ops emptyAbs)).ospg =
        ((absApplyOps ops emptyAbs).nquads.image writeOspgQuad) from rfl,
      cardN writeGspoQuad (fun x₁ x₂ a b c d e => writeGspoQuad_inj a b c d e),
      cardN writeOspgQuad (fun x₁ x₂ a b c d e => writeOspgQuad_inj a b c d e)]

/-- C3 witness: the coherence statement evaluated on a concrete
insert/insert/remove history. -/
theorem c3_index_coherence_witness :
    (∀ op ∈ [StoreOp.ins sampleDefaultQuad, StoreOp.ins sampleNamedQuad,
        StoreOp.del sampleDefaultQuad], wfOp op = true) ∧
      (applyOps [StoreOp.ins sampleDefaultQuad, StoreOp.ins sampleNamedQuad,
        StoreOp.del sampleDefaultQuad] emptyStorage).dspo.card =
        (applyOps [StoreOp.ins sampleDefaultQuad, StoreOp.ins sampleNamedQuad,
          StoreOp.del sampleDefaultQuad] emptyStorage).dpos.card :=
  ⟨by decide,
    (c3_index_coherence [StoreOp.ins sampleDefaultQuad,
      StoreOp.ins sampleNamedQuad, StoreOp.del sampleDefaultQuad]
      (by decide)).1.1⟩

/-- C4: bulk loading a finite batch of well-formed quads into the empty
store through `FileBulkLoader` (encode into dedup sets, emit one sorted
file per column family, ingest) produces exactly the same storage state
— hence the same scan results — as inserting the quads one at a time
with `StorageWriter::insert`. -/
theorem c4_bulk_load_equivalence (qs : List EncodedQuad)
    (hwf : ∀ q ∈ qs, wfQuad q = true) :
    fileBulkLoad qs emptyStorage = applyOps (qs.map StoreOp.ins) emptyStorage := by
  have hops : ∀ op ∈ qs.map StoreOp.ins, wfOp op = true := by
    intro op hop
    obtain ⟨q, hq, rfl⟩ := List.mem_map.mp hop
    exact hwf q hq
  obtain ⟨heq, _⟩ := applyOps_sim (qs.map StoreOp.ins) emptyAbs emptyAbs_wf hops
  rw [concretize_emptyAbs] at heq
  have hgr : (fblEncode qs).quads = [] → (fblEncode qs).graphs = [] :=
    fblEncode_graphs_nil qs fblNew (fun _ => rfl)
  rw [fileBulkLoad, fblSave_emptyStorage _ hgr, fblEncode_abs, heq]

/-- C4 witness: the equivalence evaluated on a concrete batch with a
duplicate. -/
theorem c4_bulk_load_equivalence_witness :
    (∀ q ∈ [sampleDefaultQuad, sampleNamedQuad, sampleDefaultQuad],
        wfQuad q = true) ∧
      fileBulkLoad [sampleDefaultQuad, sampleNamedQuad, sampleDefaultQuad]
          emptyStorage =
        applyOps ([sampleDefaultQuad, sampleNamedQuad,
          sampleDefaultQuad].map StoreOp.ins) emptyStorage :=
  ⟨by decide,
    c4_bulk_load_equivalence [sampleDefaultQuad, sampleNamedQuad,
      sampleDefaultQuad] (by decide)⟩

/-- Hash of a sample class IRI `http://example.com/A`. -/
def hashA : BV 16 := strHashNew "http://example.com/A"

/-- Hash of a sample class IRI `http://example.com/B`. -/
def hashB : BV 16 := strHashNew "http://example.com/B"

/-- A concrete class tree: `A ⊑ B` with `A` labeled `(1,2)` under parent
`B` and `B` labeled `(0,3,0)` at the root. -/
def sampleClassTree : MultiTree :=
  ⟨[(hashA, ⟨"http://example.com/A",
      [⟨bv 8 1, bv 8 2, bv 2 1, "http://example.com/B"⟩]⟩),
    (hashB, ⟨"http://example.com/B",
      [⟨bv 8 0, bv 8 3, bv 2 0, "http://www.w3.org/2002/07/owl#Class"⟩]⟩)]⟩

/-- The subject of a concrete `A rdfs:subClassOf B` triple. -/
def sampleSubClassS : EncodedTerm := .namedNode hashA

/-- The predicate of the concrete subclass triple. -/
def sampleSubClassP : EncodedTerm := .namedNode subClassOfHash

/-- The object of the concrete subclass triple. -/
def sampleSubClassO : EncodedTerm := .namedNode hashB

/-- The concrete subclass triple as a default-graph quad. -/
def sampleSubClassQuad : EncodedQuad :=
  ⟨sampleSubClassS, sampleSubClassP, sampleSubClassO, .defaultGraph⟩

/-- C7 counterexample: on a concrete `A rdfs:subClassOf B` triple with a
non-empty sidecar, `encode_term_triple_oxiuse_key_spo` (the function
`save_oxiuse_key` actually feeds the `dspo` file with) prepends the
sidecar before the three encoded terms — the key is NOT the `(s,p,o)`
encoding followed by the sidecar as a suffix, contradicting the claim. -/
theorem c7_counterexample :
    encodedIntervalEncoding sampleSubClassS sampleSubClassP sampleSubClassO
        sampleClassTree sampleClassTree ≠ [] ∧
      encodeTermTripleOxiuseKeySpo sampleSubClassS sampleSubClassP
          sampleSubClassO sampleClassTree sampleClassTree ≠
        (writeTerm sampleSubClassS ++ writeTerm sampleSubClassP ++
            writeTerm sampleSubClassO) ++
          encodedIntervalEncoding sampleSubClassS sampleSubClassP
            sampleSubClassO sampleClassTree sampleClassTree ∧
      encodeTermTripleOxiuseKeySpo sampleSubClassS sampleSubClassP
          sampleSubClassO sampleClassTree sampleClassTree =
        encodedIntervalEncoding sampleSubClassS sampleSubClassP
            sampleSubClassO sampleClassTree sampleClassTree ++
          (writeTerm sampleSubClassS ++ writeTerm sampleSubClassP ++
            writeTerm sampleSubClassO) := by
  refine ⟨by decide, by decide, rfl⟩

/-- C7 (amended): in the key-side bulk-load variant every row key written
to `dspo`/`dpos`/`dosp` is the interval sidecar followed by the permuted
`(s,p,o)` encoding — the sidecar is a key PREFIX, not a suffix; in the
value-side variant the row key is exactly the permuted `(s,p,o)` encoding
and the sidecar is the row value. -/
theorem c7_sidecar_placement (triples : List EncodedQuad)
    (ct pt : MultiTree) :
    (∀ k ∈ saveOxiuseKeyDspoFile triples ct pt, ∃ q ∈ triples,
        k = encodedIntervalEncoding q.subject q.predicate q.object ct pt ++
          (writeTerm q.subject ++ writeTerm q.predicate ++ writeTerm q.object)) ∧
      (∀ k ∈ saveOxiuseKeyDposFile triples ct pt, ∃ q ∈ triples,
        k = encodedIntervalEncoding q.subject q.predicate q.object ct pt ++
          (writeTerm q.predicate ++ writeTerm q.object ++ writeTerm q.subject)) ∧
      (∀ k ∈ saveOxiuseKeyDospFile triples ct pt, ∃ q ∈ triples,
        k = encodedIntervalEncoding q.subject q.predicate q.object ct pt ++
          (writeTerm q.object ++ writeTerm q.subject ++ writeTerm q.predicate)) ∧
      (∀ kv ∈ saveOxiuseValueDspoFile triples ct pt, ∃ q ∈ triples,
        kv = (writeTerm q.subject ++ writeTerm q.predicate ++ writeTerm q.object,
          encodedIntervalEncoding q.subject q.predicate q.object ct pt)) ∧
      (∀ kv ∈ saveOxiuseValueDposFile triples ct pt, ∃ q ∈ triples,
        kv = (writeTerm q.predicate ++ writeTerm q.object ++ writeTerm q.subject,
          encodedIntervalEncoding q.subject q.predicate q.object ct pt)) ∧
      (∀ kv ∈ saveOxiuseValueDospFile triples ct pt, ∃ q ∈ triples,
        kv = (writeTerm q.object ++ writeTerm q.subject ++ writeTerm q.predicate,
          encodedIntervalEncoding q.subject q.predicate q.object ct pt)) := by
  refine ⟨?_, ?_, ?_, ?_, ?_, ?_⟩ <;>
    · intro k hk
      simp only [saveOxiuseKeyDspoFile, saveOxiuseKeyDposFile,
        saveOxiuseKeyDospFile, saveOxiuseValueDspoFile, saveOxiuseValueDposFile,
        saveOxiuseValueDospFile, buildSstForOxiuseKey, buildSstForOxiuseValue,
        List.mem_mergeSort, List.mem_map] at hk
      obtain ⟨q, hq, rfl⟩ := hk
      exact ⟨q, hq, rfl⟩

/-- C7 witness: the amended placement on the concrete subclass triple. -/
theorem c7_sidecar_placement_witness :
    encodeTermTripleOxiuseKeySpo sampleSubClassS sampleSubClassP
        sampleSubClassO sampleClassTree sampleClassTree ∈
      saveOxiuseKeyDspoFile [sampleSubClassQuad] sampleClassTree
        sampleClassTree ∧
      ∃ q ∈ [sampleSubClassQuad],
        encodeTermTripleOxiuseKeySpo sampleSubClassS sampleSubClassP
            sampleSubClassO sampleClassTree sampleClassTree =
          encodedIntervalEncoding q.subject q.predicate q.object
              sampleClassTree sampleClassTree ++
            (writeTerm q.subject ++ writeTerm q.predicate ++
              writeTerm q.object) := by
  have hmem : encodeTermTripleOxiuseKeySpo sampleSubClassS sampleSubClassP
      sampleSubClassO sampleClassTree sampleClassTree ∈
      saveOxiuseKeyDspoFile [sampleSubClassQuad] sampleClassTree
        sampleClassTree := by
    rw [saveOxiuseKeyDspoFile, buildSstForOxiuseKey, List.mem_mergeSort]
    exact List.mem_map_of_mem _ (List.mem_singleton_self sampleSubClassQuad)
  exact ⟨hmem,
    (c7_sidecar_placement [sampleSubClassQuad] sampleClassTree
      sampleClassTree).1 _ hmem⟩

/-- C8: whenever a taxonomy-tree lookup required by the predicate's
branch fails (the subject or object is not a named node, or its hash is
absent from the relevant tree), `encoded_interval_encoding` returns the
empty byte string — no error is signalled, the function's type has no
error channel — and the triple is nonetheless written to all three
default-graph files built by `save_oxiuse_value` (with its permuted key
and the sidecar as value). -/
theorem c8_lookup_failure_silent (s p o : EncodedTerm)
    (ct pt : MultiTree)
    (hfail : intervalLookupFails s p o ct pt = true) :
    encodedIntervalEncoding s p o ct pt = [] ∧
      ∀ (triples : List EncodedQuad) (q : EncodedQuad), q ∈ triples →
        encodeTermTripleOxiuseValueSpo q.subject q.predicate q.object ct pt ∈
            saveOxiuseValueDspoFile triples ct pt ∧
          encodeTermTripleOxiuseValuePos q.subject q.predicate q.object ct pt ∈
            saveOxiuseValueDposFile triples ct pt ∧
          encodeTermTripleOxiuseValueOsp q.subject q.predicate q.object ct pt ∈
            saveOxiuseValueDospFile triples ct pt := by
  constructor
  · cases p with
    | namedNode iriId =>
      simp only [encodedIntervalEncoding]
      simp only [intervalLookupFails] at hfail
      by_cases h₁ : iriId = subClassOfHash ∨ iriId = subOrganizationOfHash
      · rw [if_pos h₁] at hfail ⊢
        cases hcs : lookupTreeTerm ct s with
        | error e => cases lookupTreeTerm ct o <;> rfl
        | ok child =>
          cases hco : lookupTreeTerm ct o with
          | error e => rfl
          | ok parent => simp [hcs, hco, Except.isOk, Except.toBool] at hfail
      · rw [if_neg h₁] at hfail ⊢
        by_cases h₂ : iriId = subPropertyOfHash
        · rw [if_pos h₂] at hfail ⊢
          cases hcs : lookupTreeTerm pt s with
          | error e => cases lookupTreeTerm pt o <;> rfl
          | ok child =>
            cases hco : lookupTreeTerm pt o with
            | error e => rfl
            | ok parent => simp [hcs, hco, Except.isOk, Except.toBool] at hfail
        · rw [if_neg h₂] at hfail ⊢
          by_cases h₃ : iriId = domainHash ∨ iriId = rangeHash ∨
              iriId = rdfTypeHash
          · rw [if_pos h₃] at hfail ⊢
            cases hco : lookupTreeTerm ct o with
            | error e => rfl
            | ok node => simp [hco, Except.isOk, Except.toBool] at hfail
          · rw [if_neg h₃] at hfail
            exact absurd hfail (by simp)
    | defaultGraph => simp [intervalLookupFails] at hfail
    | numericalBlankNode v => simp [intervalLookupFails] at hfail
    | smallBlankNode v => simp [intervalLookupFails] at hfail
    | bigBlankNode v => simp [intervalLookupFails] at hfail
    | smallStringLiteral v => simp [intervalLookupFails] at hfail
    | bigStringLiteral v => simp [intervalLookupFails] at hfail
    | smallSmallLangStringLiteral v l => simp [intervalLookupFails] at hfail
    | smallBigLangStringLiteral v l => simp [intervalLookupFails] at hfail
    | bigSmallLangStringLiteral v l => simp [intervalLookupFails] at hfail
    | bigBigLangStringLiteral v l => simp [intervalLookupFails] at hfail
    | smallTypedLiteral d v => simp [intervalLookupFails] at hfail
    | bigTypedLiteral d v => simp [intervalLookupFails] at hfail
    | booleanLiteral b => simp [intervalLookupFails] at hfail
    | floatLiteral v => simp [intervalLookupFails] at hfail
    | doubleLiteral v => simp [intervalLookupFails] at hfail
    | integerLiteral v => simp [intervalLookupFails] at hfail
    | decimalLiteral v => simp [intervalLookupFails] at hfail
    | dateTimeLiteral v => simp [intervalLookupFails] at hfail
    | timeLiteral v => simp [intervalLookupFails] at hfail
    | dateLiteral v => simp [intervalLookupFails] at hfail
    | gYearMonthLiteral v => simp [intervalLookupFails] at hfail
    | gYearLiteral v => simp [intervalLookupFails] at hfail
    | gMonthDayLiteral v => simp [intervalLookupFails] at hfail
    | gDayLiteral v => simp [intervalLookupFails] at hfail
    | gMonthLiteral v => simp [intervalLookupFails] at hfail
    | durationLiteral v => simp [intervalLookupFails] at hfail
    | yearMonthDurationLiteral v => simp [intervalLookupFails] at hfail
    | dayTimeDurationLiteral v => simp [intervalLookupFails] at hfail
    | triple a b c => simp [intervalLookupFails] at hfail
  · intro triples q hq
    refine ⟨?_, ?_, ?_⟩
    · rw [saveOxiuseValueDspoFile, buildSstForOxiuseValue, List.mem_mergeSort]
      exact List.mem_map_of_mem _ hq
    · rw [saveOxiuseValueDposFile, buildSstForOxiuseValue, List.mem_mergeSort]
      exact List.mem_map_of_mem _ hq
    · rw [saveOxiuseValueDospFile, buildSstForOxiuseValue, List.mem_mergeSort]
      exact List.mem_map_of_mem _ hq

/-- Subject of a concrete failing subclass triple: a named node absent
from the (empty) class tree. -/
def sampleMissingS : EncodedTerm := .namedNode (strHashNew "http://example.com/C")

/-- The empty taxonomy tree. -/
def emptyTree : MultiTree := ⟨[]⟩

/-- C8 witness: the silent-empty behaviour on a concrete
`C rdfs:subClassOf B` triple whose subject is absent from the tree,
including its presence in the `dspo` value-variant file. -/
theorem c8_lookup_failure_silent_witness :
    intervalLookupFails sampleMissingS sampleSubClassP sampleSubClassO
        emptyTree emptyTree = true ∧
      encodedIntervalEncoding sampleMissingS sampleSubClassP sampleSubClassO
        emptyTree emptyTree = [] ∧
      encodeTermTripleOxiuseValueSpo sampleMissingS sampleSubClassP
          sampleSubClassO emptyTree emptyTree ∈
        saveOxiuseValueDspoFile
          [⟨sampleMissingS, sampleSubClassP, sampleSubClassO, .defaultGraph⟩]
          emptyTree emptyTree :=
  ⟨by decide,
    (c8_lookup_failure_silent sampleMissingS sampleSubClassP sampleSubClassO
      emptyTree emptyTree (by decide)).1,
    ((c8_lookup_failure_silent sampleMissingS sampleSubClassP sampleSubClassO
      emptyTree emptyTree (by decide)).2
      [⟨sampleMissingS, sampleSubClassP, sampleSubClassO, .defaultGraph⟩]
      ⟨sampleMissingS, sampleSubClassP, sampleSubClassO, .defaultGraph⟩
      (List.mem_singleton_self _)).1⟩
